import Mathlib

/-!
# Verification of the avrofastapi protocol layer

A shallow embedding of the avrofastapi repository (an Avro-over-HTTP RPC
layer for FastAPI) together with proofs about its handshake state machine,
schema-compatibility cache, schema generator, client gateway and binary
codec.  The embedding is translated from the Python source files
(`routing.py`, `gateway.py`, `schema.py`, `handshake.py`,
`serialization.py`); where the implementation delegates to the external
`avro` library (the binary codec itself), the definitions are modelled from
the specification of the wire format.

Machine integers are modelled as `Nat`/`Int`; byte strings as `List Nat`
(each element a byte value); fallible code returns `Option`/`Except`.
-/

namespace AvroFastAPI

/-- A byte string (each entry is one byte, `< 256` whenever produced by an
encoder in this file). -/
abbrev Bytes := List Nat

/-! ## Zig-zag and varint integer encoding

Modelled from the spec: "Integers use zig-zag varint" (§4.2); the actual
encoder lives in the external `avro` library (`BinaryEncoder.write_long`),
which maps `n` to `(n << 1) ^ (n >> 63)` on 64-bit two's-complement values
and emits base-128 little-endian groups with a continuation bit. -/

/-- Zig-zag map from signed to unsigned: `0, -1, 1, -2, 2, …` to
`0, 1, 2, 3, 4, …`. -/
def zigzag (i : Int) : Nat :=
  if 0 ≤ i then 2 * i.toNat else 2 * i.natAbs - 1

/-- Inverse of `zigzag`. -/
def unzigzag (n : Nat) : Int :=
  if n % 2 = 0 then ((n / 2 : Nat) : Int) else -((n / 2 : Nat) : Int) - 1

/-- Base-128 little-endian varint encoding of a natural number, continuation
bit `0x80` on all but the last group. -/
def varintEncode (n : Nat) : Bytes :=
  if h : n < 128 then [n]
  else (n % 128 + 128) :: varintEncode (n / 128)
decreasing_by
  exact Nat.div_lt_self (by omega) (by omega)

/-- Varint decoding; returns the decoded value and the unconsumed tail. -/
def varintDecode : Bytes → Option (Nat × Bytes)
  | [] => none
  | b :: rest =>
    if b < 128 then some (b, rest)
    else
      match varintDecode rest with
      | some (n, r) => some (b - 128 + 128 * n, r)
      | none => none

/-- Avro `long`/`int` encoding: zig-zag then varint. -/
def encodeLong (i : Int) : Bytes := varintEncode (zigzag i)

/-- Avro `long`/`int` decoding. -/
def decodeLong (bs : Bytes) : Option (Int × Bytes) :=
  match varintDecode bs with
  | some (n, r) => some (unzigzag n, r)
  | none => none

/-- Fixed-width little-endian byte encoding (used for the IEEE-754 bit
patterns of `float`/`double`: "Floats/doubles are little-endian IEEE-754",
spec §4.2; the bit patterns themselves are carried opaquely). -/
def leBytes : Nat → Nat → Bytes
  | 0, _ => []
  | w + 1, n => n % 256 :: leBytes w (n / 256)

/-- Fixed-width little-endian byte decoding. -/
def leDecode : Nat → Bytes → Option (Nat × Bytes)
  | 0, bs => some (0, bs)
  | _ + 1, [] => none
  | w + 1, b :: bs =>
    match leDecode w bs with
    | some (n, r) => some (b + 256 * n, r)
    | none => none

/-! ## The Avro schema tree and value domain

Modelled from the spec: "AvroSchema — a recursive tagged tree with
variants: primitive …; record …; enum …; array …; map …; fixed …; union"
(§3).  Names and namespaces do not influence the binary encoding, so the
codec-level schema tree carries only the encoding-relevant data (sizes,
symbol lists, field order); logical overlays (`date`, `uuid`,
`timestamp-micros`, …) encode exactly as their base type and are therefore
represented by it. -/

inductive AvroType : Type where
  | nullT
  | booleanT
  | intT
  | longT
  | floatT
  | doubleT
  | bytesT
  | stringT
  | fixedT (size : Nat)
  | enumT (symbols : List String)
  | arrayT (items : AvroType)
  | mapT (values : AvroType)
  | unionT (branches : List AvroType)
  | recordT (fields : List AvroType)
deriving Repr

/-- A datum in the Avro value domain.  `float`/`double` values are carried
as their IEEE-754 bit patterns (the codec moves the bits audit-faithfully;
float arithmetic and NaN comparison semantics are outside the embedding);
`string` values are carried as their UTF-8 byte strings; a `union` datum
records the selected branch; a `record` datum lists its field values in
schema field order (the writer looks fields up by name in schema order, so
positional storage is the faithful shallow embedding). -/
inductive AvroValue : Type where
  | nullV
  | booleanV (b : Bool)
  | intV (i : Int)
  | longV (i : Int)
  | floatV (bits : Nat)
  | doubleV (bits : Nat)
  | bytesV (bs : Bytes)
  | stringV (bs : Bytes)
  | fixedV (bs : Bytes)
  | enumV (symbol : String)
  | arrayV (items : List AvroValue)
  | mapV (entries : List (Bytes × AvroValue))
  | unionV (branch : Nat) (val : AvroValue)
  | recordV (fields : List AvroValue)
deriving Repr

mutual

/-- A datum is valid for a schema (mirrors the datum checks the writer
performs before encoding: `AvroTypeException` on mismatch, spec §4.2
"TypeError (datum incompatible with schema at encode time)").  `int` is
32-bit bounded, `long` 64-bit bounded; a `fixed` datum must have exactly
the schema's size; an `enum` datum must be one of the symbols; a `union`
datum's branch must exist and accept the payload. -/
def valid : AvroType → AvroValue → Bool
  | .nullT, .nullV => true
  | .booleanT, .booleanV _ => true
  | .intT, .intV i => decide (-2147483648 ≤ i ∧ i ≤ 2147483647)
  | .longT, .longV i => decide (-9223372036854775808 ≤ i ∧ i ≤ 9223372036854775807)
  | .floatT, .floatV bits => decide (bits < 2 ^ 32)
  | .doubleT, .doubleV bits => decide (bits < 2 ^ 64)
  | .bytesT, .bytesV _ => true
  | .stringT, .stringV _ => true
  | .fixedT size, .fixedV bs => decide (bs.length = size)
  | .enumT syms, .enumV s => decide (s ∈ syms)
  | .arrayT it, .arrayV items => validList it items
  | .mapT vt, .mapV entries => validEntries vt entries
  | .unionT brs, .unionV k v =>
    match brs[k]? with
    | some t => valid t v
    | none => false
  | .recordT fts, .recordV fvs => validFields fts fvs
  | _, _ => false

/-- All elements of an array are valid for the item schema. -/
def validList : AvroType → List AvroValue → Bool
  | _, [] => true
  | t, v :: vs => valid t v && validList t vs

/-- All values of a map are valid for the value schema. -/
def validEntries : AvroType → List (Bytes × AvroValue) → Bool
  | _, [] => true
  | t, (_, v) :: es => valid t v && validEntries t es

/-- Record fields line up with the schema fields one to one. -/
def validFields : List AvroType → List AvroValue → Bool
  | [], [] => true
  | t :: ts, v :: vs => valid t v && validFields ts vs
  | _, _ => false

end

/-! ## The binary encoder

Modelled from the spec (§4.2): "`null` datum is a zero-byte encoding.
Strings and bytes are length-prefixed with zig-zag-varint length.  Integers
use zig-zag varint.  Floats/doubles are little-endian IEEE-754.  Enums:
… write the ordinal position."  Arrays and maps use the standard Avro
block form (count, items, zero-count terminator), a union datum is its
zig-zag branch index followed by the branch encoding, and a record is the
concatenation of its field encodings in schema order — the dispatch the
source performs in `ABetterDatumWriter.write_data`
(`serialization.py`), whose per-type writers live in the external `avro`
library. -/

mutual

/-- Encode a datum per the writer schema. Mirrors
`ABetterDatumWriter.write_data`; on a schema/datum mismatch the source
raises and produces no bytes, here rendered as `[]` (all theorems guard
with `valid`). -/
def encodeValue : AvroType → AvroValue → Bytes
  | .nullT, _ => []
  | .booleanT, .booleanV b => [if b then 1 else 0]
  | .intT, .intV i => encodeLong i
  | .longT, .longV i => encodeLong i
  | .floatT, .floatV bits => leBytes 4 bits
  | .doubleT, .doubleV bits => leBytes 8 bits
  | .bytesT, .bytesV bs => encodeLong bs.length ++ bs
  | .stringT, .stringV bs => encodeLong bs.length ++ bs
  | .fixedT _, .fixedV bs => bs
  | .enumT syms, .enumV s => encodeLong (syms.indexOf s)
  | .arrayT it, .arrayV items =>
    (if 0 < items.length then encodeLong items.length ++ encodeItems it items else [])
      ++ encodeLong 0
  | .mapT vt, .mapV entries =>
    (if 0 < entries.length then encodeLong entries.length ++ encodeEntries vt entries else [])
      ++ encodeLong 0
  | .unionT brs, .unionV k v =>
    (match brs[k]? with
     | some t => encodeLong k ++ encodeValue t v
     | none => [])
  | .recordT fts, .recordV fvs => encodeFields fts fvs
  | _, _ => []

/-- Encode the items of one array block in order. -/
def encodeItems : AvroType → List AvroValue → Bytes
  | _, [] => []
  | t, v :: vs => encodeValue t v ++ encodeItems t vs

/-- Encode the key/value pairs of one map block in order (keys are encoded
as Avro strings). -/
def encodeEntries : AvroType → List (Bytes × AvroValue) → Bytes
  | _, [] => []
  | t, (k, v) :: es => (encodeLong k.length ++ k) ++ encodeValue t v ++ encodeEntries t es

/-- Encode record fields in schema order. -/
def encodeFields : List AvroType → List AvroValue → Bytes
  | t :: ts, v :: vs => encodeValue t v ++ encodeFields ts vs
  | _, _ => []

end

/-! ## The binary decoder

Modelled from the spec (§4.2): the "Reader uses the writer schema to drive
parsing"; arrays and maps are sequences of counted blocks terminated by a
zero count.  Each block loop is given fuel equal to the remaining input
length — every loop iteration consumes at least the one byte of its count
varint, so this fuel is never the limiting factor on real input.  Decoding
returns the datum and the unconsumed tail, or `none` on truncated or
schema-incompatible bytes (the source's `DecodeError`). -/

mutual

/-- Decode one datum per the (writer) schema, returning it and the tail. -/
def decodeValue : AvroType → Bytes → Option (AvroValue × Bytes)
  | .nullT, bs => some (.nullV, bs)
  | .booleanT, bs =>
    match bs with
    | [] => none
    | b :: r =>
      if b = 1 then some (.booleanV true, r)
      else if b = 0 then some (.booleanV false, r)
      else none
  | .intT, bs =>
    match decodeLong bs with
    | some (i, r) => some (.intV i, r)
    | none => none
  | .longT, bs =>
    match decodeLong bs with
    | some (i, r) => some (.longV i, r)
    | none => none
  | .floatT, bs =>
    match leDecode 4 bs with
    | some (n, r) => some (.floatV n, r)
    | none => none
  | .doubleT, bs =>
    match leDecode 8 bs with
    | some (n, r) => some (.doubleV n, r)
    | none => none
  | .bytesT, bs =>
    match decodeLong bs with
    | some (i, r) =>
      if 0 ≤ i ∧ i.toNat ≤ r.length then some (.bytesV (r.take i.toNat), r.drop i.toNat)
      else none
    | none => none
  | .stringT, bs =>
    match decodeLong bs with
    | some (i, r) =>
      if 0 ≤ i ∧ i.toNat ≤ r.length then some (.stringV (r.take i.toNat), r.drop i.toNat)
      else none
    | none => none
  | .fixedT size, bs =>
    if size ≤ bs.length then some (.fixedV (bs.take size), bs.drop size) else none
  | .enumT syms, bs =>
    match decodeLong bs with
    | some (i, r) =>
      if 0 ≤ i then
        match syms[i.toNat]? with
        | some s => some (.enumV s, r)
        | none => none
      else none
    | none => none
  | .arrayT it, bs =>
    match decodeBlocks it bs.length bs with
    | some (items, r) => some (.arrayV items, r)
    | none => none
  | .mapT vt, bs =>
    match decodeMapBlocks vt bs.length bs with
    | some (entries, r) => some (.mapV entries, r)
    | none => none
  | .unionT brs, bs =>
    match decodeLong bs with
    | some (i, r) =>
      if 0 ≤ i then
        match h : brs[i.toNat]? with
        | some t =>
          have ht : sizeOf t < 1 + sizeOf brs := by
            obtain ⟨hlt, rfl⟩ := List.getElem?_eq_some.mp h
            have := List.sizeOf_lt_of_mem (List.getElem_mem hlt)
            omega
          match decodeValue t r with
          | some (v, r2) => some (.unionV i.toNat v, r2)
          | none => none
        | none => none
      else none
    | none => none
  | .recordT fts, bs =>
    match decodeFields fts bs with
    | some (fvs, r) => some (.recordV fvs, r)
    | none => none
termination_by t _ => (sizeOf t, 0, 0, 0)

/-- Decode array blocks until the zero-count terminator. -/
def decodeBlocks (it : AvroType) (fuel : Nat) (bs : Bytes) :
    Option (List AvroValue × Bytes) :=
  match fuel with
  | 0 => none
  | fuel + 1 =>
    match decodeLong bs with
    | some (cnt, r) =>
      if cnt = 0 then some ([], r)
      else if 0 < cnt then
        match decodeItems it cnt.toNat r with
        | some (items, r2) =>
          match decodeBlocks it fuel r2 with
          | some (more, r3) => some (items ++ more, r3)
          | none => none
        | none => none
      else none
    | none => none
termination_by (sizeOf it, 2, fuel, 0)

/-- Decode exactly `n` array items. -/
def decodeItems (it : AvroType) (n : Nat) (bs : Bytes) :
    Option (List AvroValue × Bytes) :=
  match n with
  | 0 => some ([], bs)
  | n + 1 =>
    match decodeValue it bs with
    | some (v, r) =>
      match decodeItems it n r with
      | some (vs, r2) => some (v :: vs, r2)
      | none => none
    | none => none
termination_by (sizeOf it, 1, 0, n)

/-- Decode map blocks until the zero-count terminator. -/
def decodeMapBlocks (vt : AvroType) (fuel : Nat) (bs : Bytes) :
    Option (List (Bytes × AvroValue) × Bytes) :=
  match fuel with
  | 0 => none
  | fuel + 1 =>
    match decodeLong bs with
    | some (cnt, r) =>
      if cnt = 0 then some ([], r)
      else if 0 < cnt then
        match decodeMapItems vt cnt.toNat r with
        | some (entries, r2) =>
          match decodeMapBlocks vt fuel r2 with
          | some (more, r3) => some (entries ++ more, r3)
          | none => none
        | none => none
      else none
    | none => none
termination_by (sizeOf vt, 2, fuel, 0)

/-- Decode exactly `n` map entries (each an Avro-string key then a value). -/
def decodeMapItems (vt : AvroType) (n : Nat) (bs : Bytes) :
    Option (List (Bytes × AvroValue) × Bytes) :=
  match n with
  | 0 => some ([], bs)
  | n + 1 =>
    match decodeLong bs with
    | some (klen, r) =>
      if 0 ≤ klen ∧ klen.toNat ≤ r.length then
        match decodeValue vt (r.drop klen.toNat) with
        | some (v, r2) =>
          match decodeMapItems vt n r2 with
          | some (es, r3) => some ((r.take klen.toNat, v) :: es, r3)
          | none => none
        | none => none
      else none
    | none => none
termination_by (sizeOf vt, 1, 0, n)

/-- Decode record fields in schema order. -/
def decodeFields : List AvroType → Bytes → Option (List AvroValue × Bytes)
  | [], bs => some ([], bs)
  | t :: ts, bs =>
    match decodeValue t bs with
    | some (v, r) =>
      match decodeFields ts r with
      | some (vs, r2) => some (v :: vs, r2)
      | none => none
    | none => none
termination_by ts _ => (sizeOf ts, 0, 0, 0)

end

mutual

/-- Boolean equality of schema trees (schema identity, as used to decide
whether a `DatumReader`'s writer and reader schemas coincide). -/
def AvroType.beq : AvroType → AvroType → Bool
  | .nullT, .nullT => true
  | .booleanT, .booleanT => true
  | .intT, .intT => true
  | .longT, .longT => true
  | .floatT, .floatT => true
  | .doubleT, .doubleT => true
  | .bytesT, .bytesT => true
  | .stringT, .stringT => true
  | .fixedT a, .fixedT b => a == b
  | .enumT a, .enumT b => a == b
  | .arrayT a, .arrayT b => AvroType.beq a b
  | .mapT a, .mapT b => AvroType.beq a b
  | .unionT xs, .unionT ys => AvroType.beqList xs ys
  | .recordT xs, .recordT ys => AvroType.beqList xs ys
  | _, _ => false

/-- Pointwise `AvroType.beq` on schema lists. -/
def AvroType.beqList : List AvroType → List AvroType → Bool
  | [], [] => true
  | x :: xs, y :: ys => AvroType.beq x y && AvroType.beqList xs ys
  | _, _ => false

end

/-! ## AvroSerializer / AvroDeserializer (`serialization.py`) -/

/-- Embeds `AvroSerializer`: a writer schema (parsed from a model or
supplied directly); calling it converts the model to a plain datum and
dispatches `ABetterDatumWriter.write_data` on the writer schema. -/
structure AvroSerializer where
  writerSchema : AvroType

/-- `AvroSerializer.__call__`. -/
def AvroSerializer.run (s : AvroSerializer) (datum : AvroValue) : Bytes :=
  encodeValue s.writerSchema datum

/-- Embeds `AvroDeserializer`: a `DatumReader` bound to a fixed
(write schema, read schema) pair (invariant I3).  Parsing is driven by the
writer schema; when the two schemas coincide no resolution projection is
involved, which is the configuration the round-trip property quantifies
over.  General writer→reader schema resolution (promotion, field
projection) is not modelled: on distinct schemas this embedding returns
`none`. -/
structure AvroDeserializer where
  readSchema : AvroType
  writeSchema : AvroType

/-- `AvroDeserializer.__call__`. -/
def AvroDeserializer.run (d : AvroDeserializer) (bs : Bytes) : Option AvroValue :=
  if AvroType.beq d.readSchema d.writeSchema then
    match decodeValue d.writeSchema bs with
    | some (v, _) => some v
    | none => none
  else none

/-! ## Handshake records (`handshake.py`) -/

/-- An MD5 digest: a 16-byte string (`MD5` / `conbytes(16, 16)`). -/
abbrev MD5 := Bytes

/-- `HandshakeMatch`. -/
inductive HandshakeMatch where
  | both
  | client
  | none
deriving Repr, DecidableEq

/-- One parsed message of a client `AvroProtocol`, reduced to what
`AvroRouter.check_schema_compatibility` inspects: `requestSchema` is
`Option.none` when the message's `request` field list is empty, otherwise
the record schema the server assembles from those fields (external
`avro.schema.Schema` objects are abstracted as opaque identifiers);
`responseSchema` is `Option.none` when `response` is `'null'`, otherwise
the schema it names. -/
structure ClientMessage where
  requestSchema : Option Nat
  responseSchema : Option Nat
deriving Repr, DecidableEq

/-- A parsed client `AvroProtocol`: its `messages` mapping, in iteration
order. -/
structure ClientProtocol where
  messages : List (String × ClientMessage)
deriving Repr, DecidableEq

/-- `HandshakeRequest`, with `clientProtocol` carried in already-parsed
form (`AvroProtocol.parse_raw` is applied to it by the router;
`Option.none` models an absent protocol). -/
structure HandshakeRequest where
  clientHash : MD5
  clientProtocol : Option ClientProtocol
  serverHash : MD5
deriving Repr, DecidableEq

/-- `HandshakeResponse` (the `meta` field, never set by this code, is
omitted). -/
structure HandshakeResponse where
  hmatch : HandshakeMatch
  serverProtocol : Option String
  serverHash : Option MD5
deriving Repr, DecidableEq

/-- `CallRequest`: the message id and the (opaque) serialized request
payload. -/
structure CallRequest where
  message : String
  request : Nat
deriving Repr, DecidableEq

/-! ## `AvroMessage` and its validators (`handshake.py`) -/

/-- An entry of `AvroMessage.types`: a parsed schema dict carrying a
`name` key (no other key is consulted by the validators). -/
structure TypeDecl where
  name : String
deriving Repr, DecidableEq

/-- One element of `AvroMessage.request` or `AvroMessage.errors` as
`validate_models_exist` sees it: a bare string, or a dict whose `type`
value is a string, or a dict whose `type` value is itself a schema
(non-string). -/
inductive MsgEntry where
  | strEnt (s : String)
  | dictEntStr (tyName : String)
  | dictEntOther
deriving Repr, DecidableEq

/-- `AvroMessage.response`: a string name or an inline schema dict. -/
inductive ResponseVal where
  | strV (s : String)
  | dictV (d : TypeDecl)
deriving Repr, DecidableEq

/-- `__built_in_types__`. -/
def builtInTypes : List String :=
  ["null", "boolean", "int", "long", "float", "double", "bytes", "string"]

/-- The string a `MsgEntry` must resolve against `types`
(`model = model if isinstance(model, str) else model['type']`), when it is
a string at all. -/
def MsgEntry.refName : MsgEntry → Option String
  | .strEnt s => some s
  | .dictEntStr s => some s
  | .dictEntOther => Option.none

/-- `AvroMessage.validate_models_exist`: every string reference in the
list must be a built-in primitive or the name of an entry of `types`. -/
def validate_models_exist (value : Option (List MsgEntry)) (types : List TypeDecl) : Bool :=
  match value with
  | Option.none => true
  | some entries =>
    entries.all fun e =>
      match e.refName with
      | some s => (types.map TypeDecl.name).contains s || builtInTypes.contains s
      | Option.none => true

/-- `AvroMessage.validate_response_exists`: a string response that is not
a built-in primitive must name an entry of `types`. -/
def validate_response_exists (value : ResponseVal) (types : List TypeDecl) : Bool :=
  match value with
  | .strV s =>
    if builtInTypes.contains s then true
    else (types.map TypeDecl.name).contains s
  | .dictV _ => true

/-- `AvroMessage.set_oneWay`: `value or values.get('response', 'null') ==
'null'` — the supplied `oneWay` when truthy, else whether the (already
validated) response is the string `'null'`. -/
def set_oneWay (value : Option Bool) (response : ResponseVal) : Bool :=
  match value with
  | some true => true
  | _ => response == .strV "null"

/-- A successfully constructed `AvroMessage`. -/
structure AvroMessage where
  doc : Option String
  types : List TypeDecl
  request : List MsgEntry
  response : ResponseVal
  errors : Option (List MsgEntry)
  oneWay : Bool
deriving Repr, DecidableEq

/-- Pydantic construction of an `AvroMessage`: fields are validated in
declaration order (`request` and `errors` by `validate_models_exist`,
`response` by `validate_response_exists`), and `oneWay` is computed by
`set_oneWay` from the supplied value and the response; a failed validator
aborts construction. -/
def mkAvroMessage (doc : Option String) (types : List TypeDecl)
    (request : List MsgEntry) (response : ResponseVal)
    (errors : Option (List MsgEntry)) (oneWay : Option Bool) : Option AvroMessage :=
  if validate_models_exist (some request) types
      && validate_response_exists response types
      && validate_models_exist errors types then
    some {
      doc := doc
      types := types
      request := request
      response := response
      errors := errors
      oneWay := set_oneWay oneWay response
    }
  else
    Option.none

/-! ## The schema generator's field conversion (`schema.py`) -/

/-- The generated-schema JSON fragment relevant to field types: a bare
string (primitive or named reference), a named schema dict (abstracted to
its name), or an array of member schemas (a union). -/
inductive SchemaJson where
  | str (s : String)
  | obj (name : String)
  | arr (xs : List SchemaJson)
deriving Repr

/-- The default value recorded for a field (`field.default`);
`JsonVal.null` models Python `None`. -/
inductive JsonVal where
  | null
  | bool (b : Bool)
  | num (n : Int)
  | str (s : String)
deriving Repr, DecidableEq

/-- The fragment of the Python annotation language that
`AvroSchemaGenerator._convert_object` inspects per field:
`typingUnion` covers `typing.Union` / `typing.Optional` annotations, whose
`__origin__` is `typing.Union`; `pipeUnion` covers PEP 604 `X | Y`
annotations (`types.UnionType`), which expose `__args__` but **no**
`__origin__` attribute.  Both dispatch to `_convert_union` inside
`_get_type` (`_conversions_[Union]` and `_conversions_[UnionType]`), but
only `typingUnion` satisfies the
`getattr(submodel, '__origin__', None) is Union` test on the
null-default special case.  `named` stands for any other annotation,
carrying the schema `_get_type` produces for it (the per-generation `refs`
set, which turns repeated named types into reference strings, is folded
into that carried schema). -/
inductive PyType where
  | noneType
  | boolT
  | intT
  | strT
  | named (schema : SchemaJson)
  | typingUnion (args : List PyType)
  | pipeUnion (args : List PyType)
deriving Repr

/-- Python `x is type(None)`. -/
def PyType.isNoneType : PyType → Bool
  | .noneType => true
  | _ => false

mutual

/-- `AvroSchemaGenerator._get_type` on this fragment: `type(None) →
'null'`, `bool → 'boolean'`, `int → 'long'`, `str → 'string'`, unions of
either flavour map their members in declaration order
(`_convert_union`). -/
def pyGetType : PyType → SchemaJson
  | .noneType => .str "null"
  | .boolT => .str "boolean"
  | .intT => .str "long"
  | .strT => .str "string"
  | .named s => s
  | .typingUnion args => .arr (pyGetTypeList args)
  | .pipeUnion args => .arr (pyGetTypeList args)

/-- Member-wise `pyGetType` (`_convert_union`'s `map`). -/
def pyGetTypeList : List PyType → List SchemaJson
  | [] => []
  | t :: ts => pyGetType t :: pyGetTypeList ts

end

/-- A pydantic field as `_convert_object` iterates it: its name, its raw
annotation, its default (`JsonVal.null` models Python `None`, the default
of optional fields) and its `required` flag. -/
structure PyField where
  name : String
  annotation : PyType
  default : JsonVal
  required : Bool
deriving Repr

/-- A generated field schema object: the `default` key is `Option.none`
when omitted from the emitted dict. -/
structure FieldSchema where
  name : String
  ftype : SchemaJson
  default : Option JsonVal
deriving Repr

/-- The null-default special-case test of `_convert_object` (line 157):
`getattr(submodel, '__origin__', None) is Union and len(submodel.__args__)
== 2 and type(None) in submodel.__args__ and field.default is None`.
PEP 604 unions fail the first conjunct because `types.UnionType` has no
`__origin__`. -/
def isNullDefaultUnion (f : PyField) : Bool :=
  match f.annotation with
  | .typingUnion args =>
    decide (args.length = 2) && args.any PyType.isNoneType && (f.default == .null)
  | _ => false

/-- The body of `_convert_object`'s field loop (lines 152-170): on the
null-default special case, re-emit the union as `Union[None, T]` (null
ordered first) and omit the `default` key; otherwise emit the type as-is
and, when the field is not required, follow it with its `default`. -/
def convert_object_field (f : PyField) : FieldSchema :=
  match f.annotation with
  | .typingUnion args =>
    if isNullDefaultUnion f then
      let idx := args.findIdx PyType.isNoneType
      let tyIndex : Nat := if idx ≠ 0 then 0 else 1
      let t := args.getD tyIndex .noneType
      { name := f.name
        ftype := pyGetType (.typingUnion [.noneType, t])
        default := Option.none }
    else
      { name := f.name
        ftype := pyGetType f.annotation
        default := if f.required then Option.none else some f.default }
  | _ =>
    { name := f.name
      ftype := pyGetType f.annotation
      default := if f.required then Option.none else some f.default }

/-! ## The router (`routing.py`)

`AvroRouter` holds the registered avro routes, the server protocol state
`(protocol json, md5 hash, errors serializer)` and the client-protocol
compatibility cache (an `OrderedDict`, modelled as an association list in
insertion order).  External `avro.schema.Schema` objects are abstracted as
opaque identifiers (`Nat`), and the external
`ReaderWriterCompatibilityChecker.get_compatibility` is a parameter
`checker reader writer : Bool` (`true` iff the result is `compatible`). -/

/-- Association-list lookup with Python `dict` semantics. -/
def alookup {β : Type} : List (String × β) → String → Option β
  | [], _ => Option.none
  | (k, v) :: rest, key => if key = k then some v else alookup rest key

/-- Association-list lookup keyed by byte strings (MD5 digests). -/
def blookup {β : Type} : List (MD5 × β) → MD5 → Option β
  | [], _ => Option.none
  | (k, v) :: rest, key => if key = k then some v else blookup rest key

/-- A cached request deserializer: bound to a fixed (reader schema, writer
schema) pair — `AvroDeserializer(route.body_field.type_,
route.body_schema, client_protocol_request_schema, parse=False)`. -/
structure ReqDeserializer where
  reader : Nat
  writer : Nat
deriving Repr, DecidableEq

/-- A compatibility-cache entry: the per-route request deserializers and
the client-compatibility flag. -/
abbrev CacheEntry := List (String × ReqDeserializer) × Bool

/-- The registered data of one avro route that the handshake path
consults: its unique id, its body schema (`Option.none` when the endpoint
takes no body) and its response schema (`Option.none` when it has no
response model). -/
structure RouteInfo where
  uniqueId : String
  bodySchema : Option Nat
  responseSchema : Option Nat
deriving Repr, DecidableEq

/-- `AvroRouter` state. -/
structure AvroRouter where
  avroRoutes : List (String × RouteInfo)
  serverProtocol : String
  protocolHash : MD5
  clientProtocolMaxSize : Nat
  clientProtocolCache : List (MD5 × CacheEntry)
deriving Repr

/-- `AvroRouter.__init__`'s cache configuration: a fresh router starts
with an empty cache and `_client_protocol_max_size = 100`. -/
def mkAvroRouter (routes : List (String × RouteInfo)) (serverProtocol : String)
    (protocolHash : MD5) : AvroRouter :=
  { avroRoutes := routes
    serverProtocol := serverProtocol
    protocolHash := protocolHash
    clientProtocolMaxSize := 100
    clientProtocolCache := [] }

/-- The `AvroDecodeError` raise sites of the handshake/dispatch path. -/
inductive DecodeErr where
  | noBody
  | handshakeParse
  | protocolNotCached
  | routeMissing (routeId : String)
  | requestIncompatible
  | requestUnexpected
  | requestMissing
  | messageNotFound (message : String)
  | deserializerMissing (message : String)
deriving Repr, DecidableEq

/-- `str(e)` for each `AvroDecodeError` (`routing.py`; `validIds` is the
router's message-id list interpolated into the `messageNotFound` text). -/
def DecodeErr.message (validIds : List String) : DecodeErr → String
  | .noBody =>
    "no body was included with the avro request, a handshake must be provided with every request"
  | .handshakeParse => "There was an error parsing the avro handshake."
  | .protocolNotCached =>
    "client request protocol was not included and client request hash was not cached."
  | .routeMissing routeId =>
    "route does not exist for client protocol message " ++ routeId ++ "."
  | .requestIncompatible => "client request protocol is incompatible."
  | .requestUnexpected => "client protocol provided a request but route does not expect one."
  | .requestMissing => "client protocol did not provide a request but route expects one."
  | .messageNotFound msg =>
    msg ++ " not found in valid messages (" ++ String.intercalate ", " validIds ++ ")"
  | .deserializerMissing msg =>
    "call request message " ++ msg ++ " was not found in client protocol"

/-- The purge step of `check_schema_compatibility` (lines 641-648): when
the cache exceeds the maximum size, delete every key in
`list(reversed(cache.keys()))[len(cache) - max_size:]` — i.e. all but the
`len - max_size` most recently inserted keys. -/
def purgeCache (cache : List (MD5 × CacheEntry)) (maxSize : Nat) :
    List (MD5 × CacheEntry) :=
  if cache.length > maxSize then
    let toDelete := (cache.map Prod.fst).reverse.drop (cache.length - maxSize)
    cache.filter fun kv => decide (kv.1 ∉ toDelete)
  else cache

/-- The message loop of `check_schema_compatibility` (lines 565-637),
accumulating the request deserializers and the response-compatibility
flag.  The request side: a client request against a body-less route (or
vice versa) raises; an incompatible request schema (server body schema as
reader, client request schema as writer) raises; a compatible one caches a
deserializer.  The response side: both response schemas present runs the
check with the client schema as reader and the server schema as writer and
conjoins the result; a route response with no client response clears the
flag; no route response leaves it unchanged. -/
def checkMessages (checker : Nat → Nat → Bool) (routes : List (String × RouteInfo)) :
    List (String × ClientMessage) → (List (String × ReqDeserializer) × Bool) →
    Except DecodeErr (List (String × ReqDeserializer) × Bool)
  | [], acc => .ok acc
  | (routeId, msg) :: ms, (ds, compat) =>
    match alookup routes routeId with
    | Option.none => .error (.routeMissing routeId)
    | some route =>
      let step : Except DecodeErr (List (String × ReqDeserializer)) :=
        match msg.requestSchema, route.bodySchema with
        | some creq, some sbody =>
          if checker sbody creq then .ok (ds ++ [(route.uniqueId, ⟨sbody, creq⟩)])
          else .error .requestIncompatible
        | some _, Option.none => .error .requestUnexpected
        | Option.none, some _ => .error .requestMissing
        | Option.none, Option.none => .ok ds
      match step with
      | .error e => .error e
      | .ok ds' =>
        let compat' :=
          match msg.responseSchema, route.responseSchema with
          | some cresp, some sresp => compat && checker cresp sresp
          | Option.none, some _ => false
          | _, Option.none => compat
        checkMessages checker routes ms (ds', compat')

/-- `AvroRouter.check_schema_compatibility` (lines 548-650): return the
cached entry on a hit; with no cached entry and no client protocol raise;
otherwise run the message loop, insert the entry under the client hash and
purge the cache if it now exceeds the maximum. -/
def check_schema_compatibility (checker : Nat → Nat → Bool) (router : AvroRouter)
    (hs : HandshakeRequest) : Except DecodeErr (CacheEntry × AvroRouter) :=
  match blookup router.clientProtocolCache hs.clientHash with
  | some entry => .ok (entry, router)
  | Option.none =>
    match hs.clientProtocol with
    | Option.none => .error .protocolNotCached
    | some protocol =>
      match checkMessages checker router.avroRoutes protocol.messages ([], true) with
      | .error e => .error e
      | .ok data =>
        let cache := purgeCache (router.clientProtocolCache ++ [(hs.clientHash, data)])
          router.clientProtocolMaxSize
        .ok (data, { router with clientProtocolCache := cache })

/-- The parsed content of an avro request body: the handshake the frames
decode to (`Option.none` when they decode to none, i.e. the accumulating
`handshake_deserializer` loop never succeeds) and the call request, if any
frames follow. -/
structure AvroBody where
  handshake : Option HandshakeRequest
  call : Option CallRequest
deriving Repr, DecidableEq

/-- An incoming HTTP request as the avro layer sees it. -/
structure AvroRequest where
  contentTypeAvro : Bool
  acceptAvro : Bool
  body : Option AvroBody
  hdrServerHash : Bool
  hdrClientHash : Bool
  hdrHandshake : Bool
  hdrHandshakeValue : String
deriving Repr, DecidableEq

/-- What `settle_avro_handshake` leaves in `scope['avro_body']` for the
dispatched route. -/
inductive AvroBodyScope where
  | unset
  | nullBody
  | decoded (d : ReqDeserializer) (payload : Nat)
deriving Repr, DecidableEq

/-- The settled fate of a request: no call frames (handshake-only
response) or a route dispatch. -/
inductive SettleOutcome where
  | noCall
  | dispatch (routeId : String) (body : AvroBodyScope)
deriving Repr, DecidableEq

/-- Result of `settle_avro_handshake`: the handshake response stored in
`request.scope['avro_handshake']` (set once compatibility is resolved and
therefore still set when a later step raises), the outcome or the raised
`AvroDecodeError`, and the router (whose cache may have gained an
entry). -/
structure SettleResult where
  scopeHandshake : Option HandshakeResponse
  result : Except DecodeErr SettleOutcome
  router : AvroRouter

/-- `AvroRouter.settle_avro_handshake` (lines 653-724). -/
def settle_avro_handshake (checker : Nat → Nat → Bool) (router : AvroRouter)
    (req : AvroRequest) : SettleResult :=
  match req.body with
  | Option.none => ⟨Option.none, .error .noBody, router⟩
  | some body =>
    match body.handshake with
    | Option.none => ⟨Option.none, .error .handshakeParse, router⟩
    | some hs =>
      match check_schema_compatibility checker router hs with
      | .error e => ⟨Option.none, .error e, router⟩
      | .ok ((ds, compat), router') =>
        let hsResp : HandshakeResponse :=
          if hs.serverHash = router.protocolHash ∧ compat = true then
            ⟨.both, Option.none, Option.none⟩
          else
            ⟨.client, some router.serverProtocol, some router.protocolHash⟩
        match body.call with
        | Option.none => ⟨some hsResp, .ok .noCall, router'⟩
        | some call =>
          match alookup router.avroRoutes call.message with
          | Option.none => ⟨some hsResp, .error (.messageNotFound call.message), router'⟩
          | some route =>
            match alookup ds call.message with
            | Option.none =>
              if route.bodySchema.isSome then
                ⟨some hsResp, .error (.deserializerMissing call.message), router'⟩
              else
                ⟨some hsResp, .ok (.dispatch route.uniqueId .nullBody), router'⟩
            | some d =>
              if route.bodySchema.isSome then
                ⟨some hsResp, .ok (.dispatch route.uniqueId (.decoded d call.request)), router'⟩
              else
                ⟨some hsResp, .ok (.dispatch route.uniqueId .unset), router'⟩

/-! ## `AvroJsonResponse` (`routing.py` lines 78-164)

The serialized payloads inside frames are carried symbolically: a frame
holds the record it serializes rather than its bytes (the byte-level codec
is verified separately). -/

/-- What a response's `_model` serializes to. -/
inductive ModelData where
  | errorModel (status : Int) (error : String) (refid : Option Bytes)
  | validationModel
  | userModel (id : Nat)
deriving Repr, DecidableEq

/-- The constructor arguments of an `AvroJsonResponse` that its
`__call__` consults. -/
structure AvroJsonInit where
  model : Option ModelData
  handshake : Option HandshakeResponse
  error : Bool
  statusCode : Nat
deriving Repr, DecidableEq

/-- One frame of the avro response body. -/
inductive Frame where
  | handshakeFrame (h : HandshakeResponse)
  | callFrame (error : Bool) (payload : ModelData)
  | terminator
deriving Repr, DecidableEq

/-- The response as sent over HTTP: on the avro path, its frames, the
HTTP status and the `avro-handshake-match` header; on the JSON path the
frames are empty and the status is the one the response was constructed
with. -/
structure RenderedResponse where
  frames : List Frame
  status : Nat
  contentTypeAvro : Bool
  matchHeader : Option HandshakeMatch
deriving Repr, DecidableEq

/-- `AvroJsonResponse.__call__`: when the request accepts `avro/binary`,
the effective handshake is `scope['avro_handshake']` when present, else the
response's own; the handshake frame is elided only on a BOTH match when
the client sent the `avro-server-hash` / `avro-client-hash` /
`avro-handshake` headers with the last one not equal to `'true'`; the
status code is then forced to 200.  With neither a handshake nor a model,
`ValueError` is raised (`Except.error`).  Without `avro/binary` in the
accept header the JSON body is emitted with the constructed status
code. -/
def AvroJsonResponse_call (init : AvroJsonInit) (req : AvroRequest)
    (scopeHandshake : Option HandshakeResponse) : Except Unit RenderedResponse :=
  if req.acceptAvro then
    let handshake : Option HandshakeResponse :=
      match scopeHandshake with
      | some h => some h
      | Option.none => init.handshake
    let skipHandshake : Bool :=
      match handshake with
      | some h =>
        decide (h.hmatch = .both) && req.hdrServerHash && req.hdrClientHash &&
          req.hdrHandshake && !(req.hdrHandshakeValue == "true")
      | Option.none => false
    let matchHeader : HandshakeMatch :=
      match handshake with
      | some h => h.hmatch
      | Option.none => .none
    if handshake.isSome && !skipHandshake then
      match handshake with
      | some h =>
        match init.model with
        | some m =>
          .ok ⟨[.handshakeFrame h, .callFrame init.error m, .terminator], 200, true,
            some matchHeader⟩
        | Option.none =>
          .ok ⟨[.handshakeFrame h, .terminator], 200, true, some matchHeader⟩
      | Option.none => .error ()
    else
      match init.model with
      | some m =>
        .ok ⟨[.callFrame init.error m, .terminator], 200, true, some matchHeader⟩
      | Option.none => .error ()
  else
    .ok ⟨[], init.statusCode, false, Option.none⟩

/-! ## `AvroRouter.__call__` (lines 727-826) -/

/-- The router's reaction to a request, before response rendering. -/
inductive RouterResponse where
  | delegated
  | dispatched (routeId : String) (body : AvroBodyScope)
  | avroResponse (init : AvroJsonInit)
  | jsonResponse (status : Nat)
deriving Repr, DecidableEq

/-- Result of `AvroRouter.__call__`. -/
structure RouterResult where
  response : RouterResponse
  scopeHandshake : Option HandshakeResponse
  router : AvroRouter

/-- `AvroRouter.__call__`: non-avro content types are delegated to the
host router untouched; otherwise the handshake is settled and the route
(if any) dispatched; an `AvroDecodeError` is answered — when the server
protocol is non-empty — with an `AvroJsonResponse` carrying
`Error(status=400, error=str(e))`, a NONE handshake with `serverProtocol`
and `serverHash` included, `error=True` and constructed status 400 (and
with a plain JSON 404 otherwise). -/
def AvroRouter_call (checker : Nat → Nat → Bool) (router : AvroRouter)
    (req : AvroRequest) : RouterResult :=
  if req.contentTypeAvro then
    let s := settle_avro_handshake checker router req
    match s.result with
    | .ok .noCall =>
      ⟨.avroResponse ⟨Option.none, Option.none, false, 200⟩, s.scopeHandshake, s.router⟩
    | .ok (.dispatch rid b) => ⟨.dispatched rid b, s.scopeHandshake, s.router⟩
    | .error e =>
      if router.serverProtocol ≠ "" then
        ⟨.avroResponse
          ⟨some (.errorModel 400 (e.message (router.avroRoutes.map Prod.fst)) Option.none),
            some ⟨.none, some router.serverProtocol, some router.protocolHash⟩, true, 400⟩,
          s.scopeHandshake, s.router⟩
      else
        ⟨.jsonResponse 404, s.scopeHandshake, s.router⟩
  else
    ⟨.delegated, Option.none, router⟩

/-- The fully rendered outcome of one request against the router. -/
inductive FinalResponse where
  | delegated
  | dispatched (routeId : String) (body : AvroBodyScope)
  | rendered (r : RenderedResponse)
  | renderFailure
  | jsonError (status : Nat)
deriving Repr, DecidableEq

/-- `AvroRouter.__call__` followed by `AvroJsonResponse.__call__` on the
responses the router produces itself (dispatched requests hand off to the
endpoint and are out of the handshake layer's scope). -/
def AvroRouter_respond (checker : Nat → Nat → Bool) (router : AvroRouter)
    (req : AvroRequest) : FinalResponse × AvroRouter :=
  let res := AvroRouter_call checker router req
  match res.response with
  | .delegated => (.delegated, res.router)
  | .dispatched rid b => (.dispatched rid b, res.router)
  | .jsonResponse s => (.jsonError s, res.router)
  | .avroResponse init =>
    match AvroJsonResponse_call init req res.scopeHandshake with
    | .ok r => (.rendered r, res.router)
    | .error _ => (.renderFailure, res.router)

/-- Fold a request sequence through the router, tracking its state. -/
def processRequests (checker : Nat → Nat → Bool) (router : AvroRouter) :
    List AvroRequest → AvroRouter
  | [] => router
  | req :: reqs => processRequests checker (AvroRouter_respond checker router req).2 reqs

/-! ## The client gateway (`gateway.py`) -/

/-- One server answer per attempt of the gateway's retry loop:
a transport failure (`ClientResponseError`) or a reply whose handshake
carries `hmatch` and whose `CallResponse` has the given error flag.  (The
reader-schema rebuild performed on a CLIENT match updates deserializer
state that is orthogonal to the retry logic and is not tracked here.) -/
inductive ServerReply where
  | transportError
  | reply (hmatch : HandshakeMatch) (callError : Bool)
deriving Repr, DecidableEq

/-- The gateway state the retry loop mutates: `_handshake_status`, and
whether the outgoing `HandshakeRequest` carries the full
`clientProtocol`. -/
structure GwState where
  handshakeStatus : Option HandshakeMatch
  includeProtocol : Bool
deriving Repr, DecidableEq

/-- How one gateway call ends. -/
inductive GwOutcome where
  | success
  | callFailure
  | incompatibleProtocols
  | exhausted
deriving Repr, DecidableEq

/-- Line 135: the first request includes `clientProtocol` unless
`_handshake_status is HandshakeMatch.both`. -/
def initIncludeProtocol (status : Option HandshakeMatch) : Bool :=
  decide (status ≠ some HandshakeMatch.both)

/-- The retry loop of `Gateway.__call__` (lines 147-231), one list entry
per attempt; returns the outcome, the final state and the number of
requests issued.  On a NONE match with a previous handshake status the
status is cleared, the full `clientProtocol` is put into the request data
and `Retry` is raised (the loop continues); on NONE with no previous
status `ValueError('protocols are incompatible!')` propagates.  On CLIENT
or BOTH the status is recorded and the call response is parsed: an
`error=true` response raises `ValueError` (`callFailure`), otherwise the
call returns.  A transport error sleeps and retries.  An exhausted loop
falls through (`exhausted`, the source's implicit `None`). -/
def gatewayLoop : List ServerReply → GwState → GwOutcome × GwState × Nat
  | [], st => (.exhausted, st, 0)
  | .transportError :: rest, st =>
    let r := gatewayLoop rest st
    (r.1, r.2.1, r.2.2 + 1)
  | .reply .none _ :: rest, st =>
    match st.handshakeStatus with
    | some _ =>
      let r := gatewayLoop rest { st with handshakeStatus := Option.none, includeProtocol := true }
      (r.1, r.2.1, r.2.2 + 1)
    | Option.none => (.incompatibleProtocols, st, 1)
  | .reply .client ce :: _, st =>
    (if ce then .callFailure else .success,
      { st with handshakeStatus := some .client }, 1)
  | .reply .both ce :: _, st =>
    (if ce then .callFailure else .success,
      { st with handshakeStatus := some .both }, 1)

/-- The `Gateway` construction data relevant to `__call__`'s guard:
`__init__` (lines 94-95) sets `_serializer` iff a `request_model` was
supplied. -/
structure Gateway where
  requestModel : Option Nat
deriving Repr, DecidableEq

/-- `self._serializer` is set. -/
def Gateway.hasSerializer (g : Gateway) : Bool := g.requestModel.isSome

/-- `Gateway.__call__`: lines 109-110 raise
`TypeError("__call__() missing 1 required argument: 'body'")` whenever
`_serializer` is set — before the request is framed or any HTTP request
issued; otherwise the framed request is posted and the retry loop runs.
Returns the outcome (or the raised error message) with the number of
requests issued. -/
def Gateway_call (g : Gateway) (_body : Option Nat) (replies : List ServerReply)
    (status : Option HandshakeMatch) : Except String (GwOutcome × GwState) × Nat :=
  if g.hasSerializer then
    (.error "TypeError: __call__() missing 1 required argument: 'body'", 0)
  else
    let r := gatewayLoop replies ⟨status, initIncludeProtocol status⟩
    (.ok (r.1, r.2.1), r.2.2)

/-! ## Concrete fixtures for instance theorems -/

/-- A 16-byte digest. -/
def exHashA : MD5 := List.replicate 16 1

/-- A second 16-byte digest (used as the server protocol hash). -/
def exHashB : MD5 := List.replicate 16 2

/-- A third 16-byte digest. -/
def exHashC : MD5 := List.replicate 16 3

/-- A compatibility checker that reports every pair compatible. -/
def exChecker : Nat → Nat → Bool := fun _ _ => true

/-- A body-less, response-less route registered as `m1`. -/
def exRoute : RouteInfo := ⟨"m1", Option.none, Option.none⟩

/-- A router whose cache already holds the client hash `exHashA` with a
compatible entry. -/
def exRouterHit : AvroRouter :=
  ⟨[("m1", exRoute)], "proto", exHashB, 100, [(exHashA, ([], true))]⟩

/-- A cached handshake matching the server hash, with no call frames. -/
def exReqHit : AvroRequest :=
  ⟨true, true, some ⟨some ⟨exHashA, Option.none, exHashB⟩, Option.none⟩,
    false, false, false, ""⟩

/-- A cached handshake with a stale server hash whose call frame names an
unregistered message. -/
def exReqUnknownMsg : AvroRequest :=
  ⟨true, true, some ⟨some ⟨exHashA, Option.none, exHashC⟩, some ⟨"zz", 0⟩⟩,
    false, false, false, ""⟩

/-- An avro request with an empty body. -/
def exReqNoBody : AvroRequest := ⟨true, true, Option.none, false, false, false, ""⟩

/-- An avro request carrying a fresh, empty client protocol. -/
def exReqFresh : AvroRequest :=
  ⟨true, true, some ⟨some ⟨exHashC, some ⟨[]⟩, exHashB⟩, Option.none⟩,
    false, false, false, ""⟩

/-- A router whose two-entry cache is at its maximum size of two. -/
def exRouterFull : AvroRouter :=
  ⟨[], "proto", exHashB, 2, [(exHashA, ([], true)), (exHashB, ([], true))]⟩

theorem unzigzag_zigzag (i : Int) : unzigzag (zigzag i) = i := by
  unfold zigzag unzigzag
  by_cases h : 0 ≤ i
  · simp only [if_pos h]
    have h2 : 2 * i.toNat % 2 = 0 := by omega
    simp only [if_pos h2]
    omega
  · simp only [if_neg h]
    have h1 : 1 ≤ i.natAbs := by omega
    have h2 : (2 * i.natAbs - 1) % 2 = 1 := by omega
    simp only [h2]
    norm_num
    omega

theorem varintDecode_encode (n : Nat) (rest : Bytes) :
    varintDecode (varintEncode n ++ rest) = some (n, rest) := by
  induction n using Nat.strong_induction_on with
  | _ n ih =>
    rw [varintEncode]
    by_cases h : n < 128
    · simp [varintDecode, h]
    · have hd : n / 128 < n := Nat.div_lt_self (by omega) (by omega)
      simp only [dif_neg h, List.cons_append, varintDecode]
      have hb : ¬ (n % 128 + 128 < 128) := by omega
      simp only [if_neg hb, ih (n / 128) hd]
      have : n % 128 + 128 - 128 + 128 * (n / 128) = n := by omega
      simp only [this]

theorem decodeLong_encode (i : Int) (rest : Bytes) :
    decodeLong (encodeLong i ++ rest) = some (i, rest) := by
  simp [decodeLong, encodeLong, varintDecode_encode, unzigzag_zigzag]

theorem encodeLong_ne_nil (i : Int) : encodeLong i ≠ [] := by
  unfold encodeLong varintEncode
  split <;> simp

theorem leDecode_leBytes (w : Nat) (n : Nat) (rest : Bytes) (h : n < 256 ^ w) :
    leDecode w (leBytes w n ++ rest) = some (n, rest) := by
  induction w generalizing n with
  | zero =>
    have : n = 0 := by simpa using h
    simp [this, leBytes, leDecode]
  | succ w ih =>
    have hd : n / 256 < 256 ^ w := by
      rw [Nat.div_lt_iff_lt_mul (by omega)]
      calc n < 256 ^ (w + 1) := h
        _ = 256 ^ w * 256 := by ring
    simp only [leBytes, List.cons_append, leDecode, List.append_eq]
    rw [ih (n / 256) hd]
    simp only [Option.some.injEq, Prod.mk.injEq]
    exact ⟨by omega, trivial⟩

/-! ## Round-trip lemmas for the codec -/

theorem varintEncode_lt (n : Nat) (h : n < 128) : varintEncode n = [n] := by
  rw [varintEncode]; simp [h]

theorem encodeLong_zero : encodeLong 0 = [0] := by
  have hz : zigzag 0 = 0 := by simp [zigzag]
  rw [encodeLong, hz, varintEncode_lt 0 (by norm_num)]

theorem encodeLong_length_pos (i : Int) : 0 < (encodeLong i).length := by
  cases h : encodeLong i with
  | nil => exact absurd h (encodeLong_ne_nil i)
  | cons a l => simp

theorem getElem?_indexOf {l : List String} {a : String} (h : a ∈ l) :
    l[l.indexOf a]? = some a := by
  rw [List.getElem?_eq_some]
  exact ⟨List.indexOf_lt_length.mpr h,
    List.getElem_indexOf (List.indexOf_lt_length.mpr h)⟩

/-- A zero block count terminates an array block sequence. -/
theorem decodeBlocks_terminator (it : AvroType) (fuel : Nat) (h : 1 ≤ fuel)
    (rest : Bytes) : decodeBlocks it fuel (encodeLong 0 ++ rest) = some ([], rest) := by
  obtain ⟨f, rfl⟩ : ∃ f, fuel = f + 1 := ⟨fuel - 1, by omega⟩
  rw [decodeBlocks]
  simp [decodeLong_encode]

/-- A zero block count terminates a map block sequence. -/
theorem decodeMapBlocks_terminator (vt : AvroType) (fuel : Nat) (h : 1 ≤ fuel)
    (rest : Bytes) : decodeMapBlocks vt fuel (encodeLong 0 ++ rest) = some ([], rest) := by
  obtain ⟨f, rfl⟩ : ∃ f, fuel = f + 1 := ⟨fuel - 1, by omega⟩
  rw [decodeMapBlocks]
  simp [decodeLong_encode]

/-- Decoding the single nonempty block the encoder writes, followed by the
terminator, recovers the items. -/
theorem decodeBlocks_single (it : AvroType) (items : List AvroValue)
    (hne : items ≠ []) (fuel : Nat) (hf : 2 ≤ fuel) (rest : Bytes)
    (hitems : ∀ r, decodeItems it items.length (encodeItems it items ++ r) = some (items, r)) :
    decodeBlocks it fuel
      (encodeLong items.length ++ (encodeItems it items ++ (encodeLong 0 ++ rest)))
      = some (items, rest) := by
  obtain ⟨f, rfl⟩ : ∃ f, fuel = f + 2 := ⟨fuel - 2, by omega⟩
  rw [decodeBlocks]
  have hlen : (items.length : Int) ≠ 0 := by
    simp only [ne_eq, Int.natCast_eq_zero, List.length_eq_zero]
    exact hne
  have hpos : (0 : Int) < items.length := by
    rcases items with _ | _
    · exact absurd rfl hne
    · simp
  have hterm := decodeBlocks_terminator it (f + 1) (by omega) rest
  simp [decodeLong_encode, hlen, hpos, Int.toNat_natCast,
    hitems (encodeLong 0 ++ rest), hterm]

/-- Decoding the single nonempty map block the encoder writes, followed by
the terminator, recovers the entries. -/
theorem decodeMapBlocks_single (vt : AvroType) (entries : List (Bytes × AvroValue))
    (hne : entries ≠ []) (fuel : Nat) (hf : 2 ≤ fuel) (rest : Bytes)
    (hentries : ∀ r, decodeMapItems vt entries.length (encodeEntries vt entries ++ r)
      = some (entries, r)) :
    decodeMapBlocks vt fuel
      (encodeLong entries.length ++ (encodeEntries vt entries ++ (encodeLong 0 ++ rest)))
      = some (entries, rest) := by
  obtain ⟨f, rfl⟩ : ∃ f, fuel = f + 2 := ⟨fuel - 2, by omega⟩
  rw [decodeMapBlocks]
  have hlen : (entries.length : Int) ≠ 0 := by
    simp only [ne_eq, Int.natCast_eq_zero, List.length_eq_zero]
    exact hne
  have hpos : (0 : Int) < entries.length := by
    rcases entries with _ | _
    · exact absurd rfl hne
    · simp
  have hterm := decodeMapBlocks_terminator vt (f + 1) (by omega) rest
  simp [decodeLong_encode, hlen, hpos, Int.toNat_natCast,
    hentries (encodeLong 0 ++ rest), hterm]

/-- Item-list round trip, given the element-wise round trip. -/
theorem rtItems (it : AvroType) (items : List AvroValue)
    (ih : ∀ v ∈ items, ∀ r, valid it v = true →
      decodeValue it (encodeValue it v ++ r) = some (v, r))
    (hv : validList it items = true) (rest : Bytes) :
    decodeItems it items.length (encodeItems it items ++ rest) = some (items, rest) := by
  induction items with
  | nil => simp [encodeItems, decodeItems]
  | cons v vs ihl =>
    simp only [validList, Bool.and_eq_true] at hv
    have h1 := ih v (by simp) (encodeItems it vs ++ rest) hv.1
    have h2 := ihl (fun u hu r hr => ih u (by simp [hu]) r hr) hv.2
    rw [List.length_cons, decodeItems]
    simp only [encodeItems, List.append_assoc]
    simp [h1, h2]

/-- Map-entry-list round trip, given the element-wise round trip for the
values. -/
theorem rtEntries (vt : AvroType) (entries : List (Bytes × AvroValue))
    (ih : ∀ e ∈ entries, ∀ r, valid vt e.2 = true →
      decodeValue vt (encodeValue vt e.2 ++ r) = some (e.2, r))
    (hv : validEntries vt entries = true) (rest : Bytes) :
    decodeMapItems vt entries.length (encodeEntries vt entries ++ rest)
      = some (entries, rest) := by
  induction entries with
  | nil => simp [encodeEntries, decodeMapItems]
  | cons e es ihl =>
    obtain ⟨k, v⟩ := e
    simp only [validEntries, Bool.and_eq_true] at hv
    have h1 := ih (k, v) (by simp) (encodeEntries vt es ++ rest) hv.1
    have h2 := ihl (fun u hu r hr => ih u (by simp [hu]) r hr) hv.2
    rw [List.length_cons, decodeMapItems]
    simp only [encodeEntries, List.append_assoc]
    rw [decodeLong_encode]
    simp only [Int.toNat_natCast] at h1 h2 ⊢
    simp [Int.toNat_natCast, List.take_left, List.drop_left, h1, h2,
      Int.natCast_nonneg, Nat.le_add_right]

/-- Record-field round trip, given the element-wise round trip. -/
theorem rtFields (fts : List AvroType) (fvs : List AvroValue)
    (ih : ∀ v ∈ fvs, ∀ t r, valid t v = true →
      decodeValue t (encodeValue t v ++ r) = some (v, r))
    (hv : validFields fts fvs = true) (rest : Bytes) :
    decodeFields fts (encodeFields fts fvs ++ rest) = some (fvs, rest) := by
  induction fts generalizing fvs with
  | nil =>
    cases fvs with
    | nil => simp [encodeFields, decodeFields]
    | cons v vs => simp [validFields] at hv
  | cons t ts ihl =>
    cases fvs with
    | nil => simp [validFields] at hv
    | cons v vs =>
      simp only [validFields, Bool.and_eq_true] at hv
      have h1 := ih v (by simp) t (encodeFields ts vs ++ rest) hv.1
      have h2 := ihl vs (fun u hu t' r hr => ih u (by simp [hu]) t' r hr) hv.2
      rw [decodeFields]
      simp only [encodeFields, List.append_assoc]
      simp [h1, h2]

set_option maxHeartbeats 2000000 in
/-- Round trip of the codec, with an explicit size bound driving the
induction. -/
theorem rt_aux : ∀ (n : Nat) (v : AvroValue) (t : AvroType), sizeOf v ≤ n →
    valid t v = true →
    ∀ rest, decodeValue t (encodeValue t v ++ rest) = some (v, rest) := by
  intro n
  induction n using Nat.strong_induction_on with
  | _ n ihn =>
    intro v t hsz hv rest
    have ihsub : ∀ (u : AvroValue), sizeOf u < sizeOf v → ∀ (t' : AvroType) (r : Bytes),
        valid t' u = true → decodeValue t' (encodeValue t' u ++ r) = some (u, r) := by
      intro u hlt t' r hv'
      exact ihn (sizeOf u) (by omega) u t' le_rfl hv' r
    clear ihn hsz
    cases t <;> cases v <;> simp only [valid] at hv <;>
      try exact Bool.noConfusion hv
    case nullT.nullV =>
      simp [encodeValue, decodeValue]
    case booleanT.booleanV b =>
      cases b <;> simp [encodeValue, decodeValue]
    case intT.intV i =>
      simp [encodeValue, decodeValue, decodeLong_encode]
    case longT.longV i =>
      simp [encodeValue, decodeValue, decodeLong_encode]
    case floatT.floatV bits =>
      have hb : bits < 256 ^ 4 := by
        have := of_decide_eq_true hv
        norm_num at this ⊢
        omega
      simp [encodeValue, decodeValue, leDecode_leBytes 4 bits rest hb]
    case doubleT.doubleV bits =>
      have hb : bits < 256 ^ 8 := by
        have := of_decide_eq_true hv
        norm_num at this ⊢
        omega
      simp [encodeValue, decodeValue, leDecode_leBytes 8 bits rest hb]
    case bytesT.bytesV bs =>
      rw [decodeValue]
      simp only [encodeValue, List.append_assoc]
      rw [decodeLong_encode]
      simp [Int.toNat_natCast, List.take_left, List.drop_left]
    case stringT.stringV bs =>
      rw [decodeValue]
      simp only [encodeValue, List.append_assoc]
      rw [decodeLong_encode]
      simp [Int.toNat_natCast, List.take_left, List.drop_left]
    case fixedT.fixedV size bs =>
      have hlen : bs.length = size := of_decide_eq_true hv
      subst hlen
      rw [decodeValue]
      simp [encodeValue, List.take_left, List.drop_left]
    case enumT.enumV syms s =>
      have hmem : s ∈ syms := of_decide_eq_true hv
      rw [decodeValue]
      simp only [encodeValue]
      rw [decodeLong_encode]
      simp [Int.toNat_natCast, getElem?_indexOf hmem, Int.natCast_nonneg]
    case arrayT.arrayV it items =>
      have hptwise : ∀ u ∈ items, ∀ r, valid it u = true →
          decodeValue it (encodeValue it u ++ r) = some (u, r) := by
        intro u hu r hr
        have : sizeOf u < sizeOf (AvroValue.arrayV items) := by
          have := List.sizeOf_lt_of_mem hu
          simp only [AvroValue.arrayV.sizeOf_spec]
          omega
        exact ihsub u this it r hr
      cases items with
      | nil =>
        rw [decodeValue]
        simp only [encodeValue, List.length_nil, lt_self_iff_false, if_false,
          List.nil_append]
        rw [decodeBlocks_terminator it _ (by
          rw [List.length_append, encodeLong_zero]
          simp) rest]
      | cons v vs =>
        have hitems : ∀ r, decodeItems it (v :: vs).length
            (encodeItems it (v :: vs) ++ r) = some (v :: vs, r) :=
          fun r => rtItems it (v :: vs) hptwise hv r
        rw [decodeValue]
        rw [encodeValue]
        rw [if_pos (by simp : 0 < (v :: vs).length)]
        simp only [List.append_assoc]
        have hfuel : 2 ≤ (encodeLong ((v :: vs).length : Int) ++
            (encodeItems it (v :: vs) ++ (encodeLong 0 ++ rest))).length := by
          have h1 := encodeLong_length_pos ((v :: vs).length : Int)
          rw [List.length_append, List.length_append, List.length_append,
            encodeLong_zero]
          simp only [List.length_singleton]
          omega
        rw [decodeBlocks_single it (v :: vs) (by simp) _ hfuel rest hitems]
    case mapT.mapV vt entries =>
      have hptwise : ∀ e ∈ entries, ∀ r, valid vt e.2 = true →
          decodeValue vt (encodeValue vt e.2 ++ r) = some (e.2, r) := by
        intro e he r hr
        have : sizeOf e.2 < sizeOf (AvroValue.mapV entries) := by
          have h1 := List.sizeOf_lt_of_mem he
          have h2 : sizeOf e.2 < sizeOf e := by
            obtain ⟨k, u⟩ := e
            simp
          simp only [AvroValue.mapV.sizeOf_spec]
          omega
        exact ihsub e.2 this vt r hr
      cases entries with
      | nil =>
        rw [decodeValue]
        simp only [encodeValue, List.length_nil, lt_self_iff_false, if_false,
          List.nil_append]
        rw [decodeMapBlocks_terminator vt _ (by
          rw [List.length_append, encodeLong_zero]
          simp) rest]
      | cons e es =>
        have hentries : ∀ r, decodeMapItems vt (e :: es).length
            (encodeEntries vt (e :: es) ++ r) = some (e :: es, r) :=
          fun r => rtEntries vt (e :: es) hptwise hv r
        rw [decodeValue]
        rw [encodeValue]
        rw [if_pos (by simp : 0 < (e :: es).length)]
        simp only [List.append_assoc]
        have hfuel : 2 ≤ (encodeLong ((e :: es).length : Int) ++
            (encodeEntries vt (e :: es) ++ (encodeLong 0 ++ rest))).length := by
          have h1 := encodeLong_length_pos ((e :: es).length : Int)
          rw [List.length_append, List.length_append, List.length_append,
            encodeLong_zero]
          simp only [List.length_singleton]
          omega
        rw [decodeMapBlocks_single vt (e :: es) (by simp) _ hfuel rest hentries]
    case unionT.unionV brs k v =>
      cases hbr : brs[k]? with
      | none => rw [hbr] at hv; exact Bool.noConfusion hv
      | some t =>
        rw [hbr] at hv
        have hsub : sizeOf v < sizeOf (AvroValue.unionV k v) := by
          simp only [AvroValue.unionV.sizeOf_spec]
          omega
        have h1 := ihsub v hsub t rest hv
        rw [decodeValue]
        simp only [encodeValue, hbr, List.append_assoc]
        rw [decodeLong_encode]
        simp only [Int.toNat_natCast, Int.natCast_nonneg, if_true]
        split
        · rename_i t1 heq
          rw [hbr] at heq
          injection heq with heq
          subst heq
          rw [h1]
        · rename_i heq
          rw [hbr] at heq
          exact Option.noConfusion heq
    case recordT.recordV fts fvs =>
      have hptwise : ∀ u ∈ fvs, ∀ t' r, valid t' u = true →
          decodeValue t' (encodeValue t' u ++ r) = some (u, r) := by
        intro u hu t' r hr
        have : sizeOf u < sizeOf (AvroValue.recordV fvs) := by
          have := List.sizeOf_lt_of_mem hu
          simp only [AvroValue.recordV.sizeOf_spec]
          omega
        exact ihsub u this t' r hr
      have h1 := rtFields fts fvs hptwise hv rest
      rw [decodeValue]
      simp [encodeValue, h1]

/-- Codec round trip: decoding an encoded datum with the same schema
returns the datum, leaving trailing bytes untouched. -/
theorem decodeValue_encodeValue (t : AvroType) (v : AvroValue)
    (hv : valid t v = true) (rest : Bytes) :
    decodeValue t (encodeValue t v ++ rest) = some (v, rest) :=
  rt_aux (sizeOf v) v t le_rfl hv rest

theorem AvroType.beq_refl_aux :
    ∀ (n : Nat) (t : AvroType), sizeOf t ≤ n → AvroType.beq t t = true := by
  intro n
  induction n using Nat.strong_induction_on with
  | _ n ihn =>
    intro t hsz
    have ihsub : ∀ (u : AvroType), sizeOf u < sizeOf t → AvroType.beq u u = true := by
      intro u hlt
      exact ihn (sizeOf u) (by omega) u le_rfl
    clear ihn hsz
    have hlist : ∀ (xs : List AvroType),
        (∀ u ∈ xs, AvroType.beq u u = true) → AvroType.beqList xs xs = true := by
      intro xs hx
      induction xs with
      | nil => rfl
      | cons x l ihx =>
        rw [AvroType.beqList]
        rw [hx x (by simp), ihx (fun u hu => hx u (by simp [hu]))]
        rfl
    cases t with
    | fixedT a => simp [AvroType.beq]
    | enumT a => simp [AvroType.beq]
    | arrayT a =>
      rw [AvroType.beq]
      exact ihsub a (by simp)
    | mapT a =>
      rw [AvroType.beq]
      exact ihsub a (by simp)
    | unionT xs =>
      rw [AvroType.beq]
      exact hlist xs (fun u hu => ihsub u (by
        have := List.sizeOf_lt_of_mem hu
        simp only [AvroType.unionT.sizeOf_spec]
        omega))
    | recordT xs =>
      rw [AvroType.beq]
      exact hlist xs (fun u hu => ihsub u (by
        have := List.sizeOf_lt_of_mem hu
        simp only [AvroType.recordT.sizeOf_spec]
        omega))
    | nullT => rfl
    | booleanT => rfl
    | intT => rfl
    | longT => rfl
    | floatT => rfl
    | doubleT => rfl
    | bytesT => rfl
    | stringT => rfl

theorem AvroType.beq_refl (t : AvroType) : AvroType.beq t t = true :=
  AvroType.beq_refl_aux (sizeOf t) t le_rfl

/-! ## Supporting lemmas on the compatibility cache -/

theorem blookup_none_not_mem {β : Type} (l : List (MD5 × β)) (k : MD5)
    (h : blookup l k = Option.none) : k ∉ l.map Prod.fst := by
  induction l with
  | nil => simp
  | cons p rest ih =>
    obtain ⟨k1, v1⟩ := p
    rw [blookup] at h
    by_cases hk : k = k1
    · rw [if_pos hk] at h
      exact absurd h (by simp)
    · rw [if_neg hk] at h
      simp only [List.map_cons, List.mem_cons]
      push_neg
      exact ⟨hk, ih h⟩

theorem purgeCache_of_le (cache : List (MD5 × CacheEntry)) (m : Nat)
    (h : ¬ cache.length > m) : purgeCache cache m = cache := by
  unfold purgeCache
  rw [if_neg h]

/-- With distinct keys and an over-full cache, the purge keeps exactly the
`len - maxSize` most recently inserted entries. -/
theorem purgeCache_of_nodup (cache : List (MD5 × CacheEntry)) (m : Nat)
    (hn : (cache.map Prod.fst).Nodup) (hlen : cache.length > m) :
    purgeCache cache m = cache.drop m := by
  unfold purgeCache
  rw [if_pos hlen]
  have hset : ∀ x : MD5, x ∈ (cache.map Prod.fst).reverse.drop (cache.length - m) ↔
      x ∈ (cache.map Prod.fst).take m := by
    intro x
    have hrt : ((cache.map Prod.fst).take m).reverse
        = (cache.map Prod.fst).reverse.drop ((cache.map Prod.fst).length - m) :=
      List.reverse_take
    rw [List.length_map] at hrt
    rw [← hrt, List.mem_reverse]
  set td := (cache.map Prod.fst).reverse.drop (cache.length - m) with htd
  have h1 : (cache.take m).filter (fun kv => decide (kv.1 ∉ td)) = [] := by
    rw [List.filter_eq_nil_iff]
    intro kv hkv
    have hk : kv.1 ∈ (cache.map Prod.fst).take m := by
      rw [← List.map_take]
      exact List.mem_map_of_mem Prod.fst hkv
    simp [hset kv.1, hk]
  have h2 : (cache.drop m).filter (fun kv => decide (kv.1 ∉ td)) = cache.drop m := by
    rw [List.filter_eq_self]
    intro kv hkv
    have hk1 : kv.1 ∈ (cache.map Prod.fst).drop m := by
      rw [← List.map_drop]
      exact List.mem_map_of_mem Prod.fst hkv
    have hdisj := List.disjoint_take_drop hn (le_refl m)
    have hk2 : kv.1 ∉ (cache.map Prod.fst).take m := fun hmem => hdisj hmem hk1
    simp [hset kv.1, hk2]
  conv_lhs => rw [← List.take_append_drop m cache]
  rw [List.filter_append, h1, h2, List.nil_append]

theorem purgeCache_length (cache : List (MD5 × CacheEntry)) (m : Nat)
    (hn : (cache.map Prod.fst).Nodup) (hlen : cache.length ≤ m + 1) (hm : 1 ≤ m) :
    (purgeCache cache m).length ≤ m := by
  by_cases h : cache.length > m
  · rw [purgeCache_of_nodup cache m hn h, List.length_drop]
    omega
  · rw [purgeCache_of_le cache m h]
    omega

theorem purgeCache_nodup (cache : List (MD5 × CacheEntry)) (m : Nat)
    (hn : (cache.map Prod.fst).Nodup) :
    ((purgeCache cache m).map Prod.fst).Nodup := by
  by_cases h : cache.length > m
  · rw [purgeCache_of_nodup cache m hn h, List.map_drop]
    exact hn.sublist ((List.map Prod.fst cache).drop_sublist m)
  · rw [purgeCache_of_le cache m h]
    exact hn

/-- `check_schema_compatibility` either leaves the router untouched (cache
hit or a raised `AvroDecodeError`) or — exactly on a cache miss that runs
the message loop to completion — appends the fresh entry and purges. -/
theorem check_router_shape (checker : Nat → Nat → Bool) (router : AvroRouter)
    (hs : HandshakeRequest) (out : CacheEntry × AvroRouter)
    (hok : check_schema_compatibility checker router hs = .ok out) :
    out.2 = router ∨
    (blookup router.clientProtocolCache hs.clientHash = Option.none ∧
      out.2.clientProtocolMaxSize = router.clientProtocolMaxSize ∧
      out.2.avroRoutes = router.avroRoutes ∧
      out.2.serverProtocol = router.serverProtocol ∧
      out.2.protocolHash = router.protocolHash ∧
      out.2.clientProtocolCache =
        purgeCache (router.clientProtocolCache ++ [(hs.clientHash, out.1)])
          router.clientProtocolMaxSize) := by
  revert hok
  unfold check_schema_compatibility
  cases hlk : blookup router.clientProtocolCache hs.clientHash with
  | some e =>
    intro hok
    simp only [Except.ok.injEq] at hok
    left
    rw [← hok]
  | none =>
    cases hcp : hs.clientProtocol with
    | none =>
      intro hok
      exact absurd hok (by simp)
    | some p =>
      cases hcm : checkMessages checker router.avroRoutes p.messages ([], true) with
      | error e =>
        intro hok
        simp [hcm] at hok
      | ok data =>
        intro hok
        simp only [hcm, Except.ok.injEq] at hok
        right
        rw [← hok]
        exact ⟨rfl, rfl, rfl, rfl, rfl, rfl⟩

/-- `settle_avro_handshake` changes the router only through
`check_schema_compatibility`. -/
theorem settle_router_shape (checker : Nat → Nat → Bool) (router : AvroRouter)
    (req : AvroRequest) :
    (settle_avro_handshake checker router req).router = router ∨
    ∃ hs out, check_schema_compatibility checker router hs = .ok out ∧
      (settle_avro_handshake checker router req).router = out.2 := by
  unfold settle_avro_handshake
  cases hb : req.body with
  | none => left; rfl
  | some b =>
    dsimp only []
    cases hh : b.handshake with
    | none => left; rfl
    | some hs =>
      dsimp only []
      cases hchk : check_schema_compatibility checker router hs with
      | error e => left; rfl
      | ok out =>
        dsimp only []
        right
        refine ⟨hs, out, hchk, ?_⟩
        obtain ⟨⟨ds, compat⟩, router'⟩ := out
        dsimp only []
        cases hc : b.call with
        | none => rfl
        | some call =>
          dsimp only []
          cases alookup router.avroRoutes call.message with
          | none => rfl
          | some route =>
            dsimp only []
            cases alookup ds call.message with
            | none => by_cases hbs : route.bodySchema.isSome <;> simp [hbs]
            | some d => by_cases hbs : route.bodySchema.isSome <;> simp [hbs]

/-- The router state after `AvroRouter_respond` is the settled router on
the avro path and the original router otherwise. -/
theorem respond_router_eq (checker : Nat → Nat → Bool) (router : AvroRouter)
    (req : AvroRequest) :
    (AvroRouter_respond checker router req).2 =
      (if req.contentTypeAvro then (settle_avro_handshake checker router req).router
        else router) := by
  have hcall : (AvroRouter_respond checker router req).2 =
      (AvroRouter_call checker router req).router := by
    unfold AvroRouter_respond
    cases hres : (AvroRouter_call checker router req).response with
    | delegated => simp [hres]
    | dispatched rid b => simp [hres]
    | jsonResponse s => simp [hres]
    | avroResponse init =>
      cases hrr : AvroJsonResponse_call init req
          (AvroRouter_call checker router req).scopeHandshake with
      | ok r => simp [hres, hrr]
      | error e => simp [hres, hrr]
  rw [hcall]
  unfold AvroRouter_call
  by_cases hct : req.contentTypeAvro = true
  · simp only [hct, if_true]
    cases hres : (settle_avro_handshake checker router req).result with
    | ok o => cases o <;> simp [hres]
    | error e =>
      by_cases hsp : router.serverProtocol ≠ "" <;> simp [hres, hsp]
  · have hcf : req.contentTypeAvro = false := by
      cases h : req.contentTypeAvro
      · rfl
      · exact absurd h hct
    simp [hcf]

/-- One request preserves the cache invariant: same maximum, length within
the maximum, distinct keys. -/
theorem respond_cache_inv (checker : Nat → Nat → Bool) (router : AvroRouter)
    (req : AvroRequest)
    (hmax : 1 ≤ router.clientProtocolMaxSize)
    (hlen : router.clientProtocolCache.length ≤ router.clientProtocolMaxSize)
    (hn : (router.clientProtocolCache.map Prod.fst).Nodup) :
    (AvroRouter_respond checker router req).2.clientProtocolMaxSize
        = router.clientProtocolMaxSize ∧
    (AvroRouter_respond checker router req).2.clientProtocolCache.length
        ≤ router.clientProtocolMaxSize ∧
    ((AvroRouter_respond checker router req).2.clientProtocolCache.map Prod.fst).Nodup := by
  rw [respond_router_eq checker router req]
  by_cases hct : req.contentTypeAvro = true
  · simp only [hct, if_true]
    rcases settle_router_shape checker router req with hsame | ⟨hs, out, hok, hout⟩
    · rw [hsame]
      exact ⟨rfl, hlen, hn⟩
    · rw [hout]
      rcases check_router_shape checker router hs out hok with
        hsame2 | ⟨hmiss, hmaxeq, _, _, _, hcache⟩
      · rw [hsame2]
        exact ⟨rfl, hlen, hn⟩
      · have hnapp : ((router.clientProtocolCache ++ [(hs.clientHash, out.1)]).map
            Prod.fst).Nodup := by
          rw [List.map_append]
          rw [List.nodup_append]
          refine ⟨hn, by simp, ?_⟩
          intro a ha hb
          simp only [List.map_cons, List.map_nil, List.mem_cons, List.not_mem_nil,
            or_false] at hb
          subst hb
          exact blookup_none_not_mem router.clientProtocolCache hs.clientHash hmiss ha
        refine ⟨hmaxeq, ?_, ?_⟩
        · rw [hcache]
          apply purgeCache_length _ _ hnapp _ hmax
          rw [List.length_append]
          simp only [List.length_cons, List.length_nil]
          omega
        · rw [hcache]
          exact purgeCache_nodup _ _ hnapp
  · have hcf : req.contentTypeAvro = false := by
      cases h : req.contentTypeAvro
      · rfl
      · exact absurd h hct
    simp only [hcf, Bool.false_eq_true, if_false]
    exact ⟨trivial, hlen, hn⟩

/-- The cache invariant holds after any request sequence. -/
theorem processRequests_inv (checker : Nat → Nat → Bool) (reqs : List AvroRequest)
    (router : AvroRouter)
    (hmax : 1 ≤ router.clientProtocolMaxSize)
    (hlen : router.clientProtocolCache.length ≤ router.clientProtocolMaxSize)
    (hn : (router.clientProtocolCache.map Prod.fst).Nodup) :
    (processRequests checker router reqs).clientProtocolMaxSize
        = router.clientProtocolMaxSize ∧
    (processRequests checker router reqs).clientProtocolCache.length
        ≤ router.clientProtocolMaxSize ∧
    ((processRequests checker router reqs).clientProtocolCache.map Prod.fst).Nodup := by
  induction reqs generalizing router with
  | nil => exact ⟨rfl, hlen, hn⟩
  | cons req rest ih =>
    obtain ⟨hmax', hlen', hn'⟩ := respond_cache_inv checker router req hmax hlen hn
    have := ih (AvroRouter_respond checker router req).2
      (by rw [hmax']; exact hmax) (by rw [hmax']; exact hlen') hn'
    rw [hmax'] at this
    exact this

/-- `settle_avro_handshake` stores in `scope['avro_handshake']` exactly the
BOTH/CLIENT response computed from the compatibility result, whatever
happens to the call frames afterwards. -/
theorem settle_scope_of_ok (checker : Nat → Nat → Bool) (router : AvroRouter)
    (req : AvroRequest) (b : AvroBody) (hs : HandshakeRequest)
    (ds : List (String × ReqDeserializer)) (compat : Bool) (router' : AvroRouter)
    (hbody : req.body = some b) (hhs : b.handshake = some hs)
    (hok : check_schema_compatibility checker router hs = .ok ((ds, compat), router')) :
    (settle_avro_handshake checker router req).scopeHandshake =
      some (if hs.serverHash = router.protocolHash ∧ compat = true then
        ⟨.both, Option.none, Option.none⟩
      else ⟨.client, some router.serverProtocol, some router.protocolHash⟩) := by
  unfold settle_avro_handshake
  rw [hbody]
  dsimp only []
  rw [hhs]
  dsimp only []
  rw [hok]
  dsimp only []
  cases hc : b.call with
  | none => rfl
  | some call =>
    dsimp only []
    cases alookup router.avroRoutes call.message with
    | none => rfl
    | some route =>
      dsimp only []
      cases alookup ds call.message with
      | none => by_cases hbs : route.bodySchema.isSome <;> simp [hbs]
      | some d => by_cases hbs : route.bodySchema.isSome <;> simp [hbs]

/-- **C1.** For every avro/binary request whose handshake resolves without
a decode error, the stored `HandshakeResponse` has match BOTH exactly when
the request's `serverHash` equals the server's protocol hash and the
cached client-compatibility flag is true, and then `serverProtocol` and
`serverHash` are omitted; in every other such case the match is CLIENT and
both fields are included. -/
theorem claim_C1_handshake_match (checker : Nat → Nat → Bool) (router : AvroRouter)
    (req : AvroRequest) (b : AvroBody) (hs : HandshakeRequest)
    (ds : List (String × ReqDeserializer)) (compat : Bool) (router' : AvroRouter)
    (hbody : req.body = some b) (hhs : b.handshake = some hs)
    (hok : check_schema_compatibility checker router hs = .ok ((ds, compat), router')) :
    ∃ h, (settle_avro_handshake checker router req).scopeHandshake = some h ∧
      (h.hmatch = .both ↔ (hs.serverHash = router.protocolHash ∧ compat = true)) ∧
      (h.hmatch = .both → h.serverProtocol = Option.none ∧ h.serverHash = Option.none) ∧
      (h.hmatch ≠ .both → h.hmatch = .client ∧
        h.serverProtocol = some router.serverProtocol ∧
        h.serverHash = some router.protocolHash) := by
  rw [settle_scope_of_ok checker router req b hs ds compat router' hbody hhs hok]
  by_cases hc : hs.serverHash = router.protocolHash ∧ compat = true
  · rw [if_pos hc]
    exact ⟨_, rfl, ⟨fun _ => hc, fun _ => rfl⟩, fun _ => ⟨rfl, rfl⟩,
      fun hne => absurd rfl hne⟩
  · rw [if_neg hc]
    exact ⟨_, rfl, iff_of_false (fun hb => HandshakeMatch.noConfusion hb) hc,
      fun hb => HandshakeMatch.noConfusion hb, fun _ => ⟨rfl, rfl, rfl⟩⟩

/-- Witness for C1 at a concrete cache-hit request. -/
theorem claim_C1_witness :
    exReqHit.body = some ⟨some ⟨exHashA, Option.none, exHashB⟩, Option.none⟩ ∧
    check_schema_compatibility exChecker exRouterHit ⟨exHashA, Option.none, exHashB⟩
      = .ok (([], true), exRouterHit) ∧
    ∃ h, (settle_avro_handshake exChecker exRouterHit exReqHit).scopeHandshake = some h ∧
      (h.hmatch = .both ↔
        ((⟨exHashA, Option.none, exHashB⟩ : HandshakeRequest).serverHash
            = exRouterHit.protocolHash ∧ true = true)) ∧
      (h.hmatch = .both → h.serverProtocol = Option.none ∧ h.serverHash = Option.none) ∧
      (h.hmatch ≠ .both → h.hmatch = .client ∧
        h.serverProtocol = some exRouterHit.serverProtocol ∧
        h.serverHash = some exRouterHit.protocolHash) :=
  ⟨rfl, rfl, claim_C1_handshake_match exChecker exRouterHit exReqHit
    ⟨some ⟨exHashA, Option.none, exHashB⟩, Option.none⟩ ⟨exHashA, Option.none, exHashB⟩
    [] true exRouterHit rfl rfl rfl⟩

/-- **C4.** Every response rendered for a request whose accept header
includes `avro/binary` carries HTTP status 200 (and the avro content
type); a non-200 status can arise only on the plain JSON path. -/
theorem claim_C4_avro_status_200 (init : AvroJsonInit) (req : AvroRequest)
    (scope : Option HandshakeResponse) (r : RenderedResponse)
    (hok : AvroJsonResponse_call init req scope = .ok r) :
    (req.acceptAvro = true → r.status = 200 ∧ r.contentTypeAvro = true) ∧
    (r.status ≠ 200 → req.acceptAvro = false) := by
  have main : req.acceptAvro = true → r.status = 200 ∧ r.contentTypeAvro = true := by
    intro hacc
    unfold AvroJsonResponse_call at hok
    rw [hacc] at hok
    simp only [eq_self_iff_true, if_true] at hok
    repeat' split at hok
    all_goals first
      | exact Except.noConfusion hok
      | (injection hok with h; subst h; exact ⟨rfl, rfl⟩)
  refine ⟨main, ?_⟩
  intro hne
  cases hacc : req.acceptAvro
  · rfl
  · exact absurd (main hacc).1 hne

/-- Witness for C4 at a concrete handshake-only response. -/
theorem claim_C4_witness :
    AvroJsonResponse_call ⟨Option.none, Option.none, false, 200⟩ exReqNoBody
        (some ⟨.none, some "proto", some exHashB⟩)
      = .ok ⟨[.handshakeFrame ⟨.none, some "proto", some exHashB⟩, .terminator],
          200, true, some .none⟩ ∧
    (exReqNoBody.acceptAvro = true →
      (⟨[.handshakeFrame ⟨.none, some "proto", some exHashB⟩, .terminator],
          200, true, some .none⟩ : RenderedResponse).status = 200 ∧
      (⟨[.handshakeFrame ⟨.none, some "proto", some exHashB⟩, .terminator],
          200, true, some .none⟩ : RenderedResponse).contentTypeAvro = true) ∧
    ((⟨[.handshakeFrame ⟨.none, some "proto", some exHashB⟩, .terminator],
          200, true, some .none⟩ : RenderedResponse).status ≠ 200 →
      exReqNoBody.acceptAvro = false) := by
  refine ⟨rfl, ?_⟩
  exact claim_C4_avro_status_200 ⟨Option.none, Option.none, false, 200⟩ exReqNoBody
    (some ⟨.none, some "proto", some exHashB⟩) _ rfl

/-- **C5.** On a NONE handshake response: with a recorded prior status
(CLIENT or BOTH) the gateway clears it, includes the full client protocol
in the retried request, and retries exactly once — a second NONE fails
with the incompatible-protocols error; with no prior status it raises that
error immediately, issuing no further request. -/
theorem claim_C5_gateway_none (st : GwState) (m : HandshakeMatch) (ce ce' : Bool)
    (rest : List ServerReply) (h : st.handshakeStatus = some m) :
    (gatewayLoop (.reply .none ce :: rest) st =
      ((gatewayLoop rest ⟨Option.none, true⟩).1,
        (gatewayLoop rest ⟨Option.none, true⟩).2.1,
        (gatewayLoop rest ⟨Option.none, true⟩).2.2 + 1)) ∧
    (gatewayLoop (.reply .none ce :: .reply .none ce' :: rest) st =
      (.incompatibleProtocols, ⟨Option.none, true⟩, 2)) ∧
    (∀ ip : Bool, gatewayLoop (.reply .none ce :: rest)
        ⟨Option.none, ip⟩ = (.incompatibleProtocols, ⟨Option.none, ip⟩, 1)) := by
  refine ⟨?_, ?_, ?_⟩
  · simp [gatewayLoop, h]
  · simp [gatewayLoop, h]
  · intro ip
    simp [gatewayLoop]

/-- Witness for C5 with a prior CLIENT status. -/
theorem claim_C5_witness :
    (⟨some .client, true⟩ : GwState).handshakeStatus = some HandshakeMatch.client ∧
    gatewayLoop [.reply .none false, .reply .none false] ⟨some .client, true⟩
      = (.incompatibleProtocols, ⟨Option.none, true⟩, 2) :=
  ⟨rfl, (claim_C5_gateway_none ⟨some .client, true⟩ .client false false [] rfl).2.1⟩

/-- **C6.** Serializing a valid datum with the schema generated for its
type and deserializing the bytes with that same schema as both reader and
writer returns the datum. -/
theorem claim_C6_roundtrip (t : AvroType) (x : AvroValue) (hv : valid t x = true) :
    (AvroDeserializer.mk t t).run ((AvroSerializer.mk t).run x) = some x := by
  unfold AvroDeserializer.run AvroSerializer.run
  simp only [AvroType.beq_refl, if_true]
  have h := decodeValue_encodeValue t x hv []
  rw [List.append_nil] at h
  rw [h]

/-- Witness for C6 at a two-field record. -/
theorem claim_C6_witness :
    valid (.recordT [.longT, .stringT]) (.recordV [.longV 42, .stringV [104, 105]]) = true ∧
    (AvroDeserializer.mk (.recordT [.longT, .stringT]) (.recordT [.longT, .stringT])).run
        ((AvroSerializer.mk (.recordT [.longT, .stringT])).run
          (.recordV [.longV 42, .stringV [104, 105]]))
      = some (.recordV [.longV 42, .stringV [104, 105]]) :=
  ⟨by decide, claim_C6_roundtrip _ _ (by decide)⟩

/-- **C9.** A gateway constructed with a non-null `request_model` raises
`TypeError` on every invocation — before any HTTP request is issued — even
when a body argument is supplied. -/
theorem claim_C9_typeerror (rm : Nat) (body : Option Nat) (replies : List ServerReply)
    (status : Option HandshakeMatch) :
    Gateway_call ⟨some rm⟩ body replies status =
      (.error "TypeError: __call__() missing 1 required argument: 'body'", 0) := by
  unfold Gateway_call Gateway.hasSerializer
  simp

/-- Rendering a response that carries both a model and its own handshake,
for an avro-accepting request without the `avro-server-hash` header:
the effective handshake is the scope one when present, else the response's
own, and the body is handshake frame, call frame, terminator with status
200. -/
theorem render_error_response (model : ModelData) (hsSelf : HandshakeResponse)
    (req : AvroRequest) (scope : Option HandshakeResponse) (err : Bool) (sc : Nat)
    (hacc : req.acceptAvro = true) (hhdr : req.hdrServerHash = false) :
    AvroJsonResponse_call ⟨some model, some hsSelf, err, sc⟩ req scope =
      .ok ⟨[.handshakeFrame (scope.getD hsSelf), .callFrame err model, .terminator],
        200, true, some (scope.getD hsSelf).hmatch⟩ := by
  unfold AvroJsonResponse_call
  rw [hacc]
  simp only [eq_self_iff_true, if_true]
  cases scope with
  | none => simp [hhdr]
  | some h0 => simp [hhdr]

/-- **C2 counterexample.** A request whose handshake settles to CLIENT and
whose call frame names an unregistered message is answered with a
handshake frame whose match is CLIENT — not NONE as the claim states for
the unknown-route-id decode error. -/
theorem claim_C2_counterexample :
    (AvroRouter_respond exChecker exRouterHit exReqUnknownMsg).1 =
      FinalResponse.rendered
        ⟨[.handshakeFrame ⟨.client, some "proto", some exHashB⟩,
          .callFrame true (.errorModel 400 "zz not found in valid messages (m1)" Option.none),
          .terminator], 200, true, some .client⟩ ∧
    HandshakeMatch.client ≠ HandshakeMatch.none :=
  ⟨rfl, by decide⟩

/-- **C2 (amended).** When handshake processing raises a decode error, no
endpoint is invoked and — with a non-empty server protocol, under an
avro-accepting request without the header short-circuit — the response is
a handshake frame followed by a framed `CallResponse` with `error=true`
carrying the built-in `Error` record with status 400, at HTTP status 200;
the handshake frame has match NONE with `serverProtocol` and `serverHash`
included whenever the error was raised before the handshake settled, and
otherwise repeats the already-settled handshake (match CLIENT or BOTH)
stored in the request scope. -/
theorem claim_C2_error_response (checker : Nat → Nat → Bool) (router : AvroRouter)
    (req : AvroRequest) (e : DecodeErr)
    (hct : req.contentTypeAvro = true) (hacc : req.acceptAvro = true)
    (hhdr : req.hdrServerHash = false) (hsp : router.serverProtocol ≠ "")
    (herr : (settle_avro_handshake checker router req).result = .error e) :
    ∃ r, (AvroRouter_respond checker router req).1 = FinalResponse.rendered r ∧
      r.frames = [Frame.handshakeFrame
          (((settle_avro_handshake checker router req).scopeHandshake).getD
            ⟨.none, some router.serverProtocol, some router.protocolHash⟩),
        Frame.callFrame true (ModelData.errorModel 400
          (e.message (router.avroRoutes.map Prod.fst)) Option.none),
        Frame.terminator] ∧
      r.status = 200 ∧
      ((settle_avro_handshake checker router req).scopeHandshake = Option.none →
        r.frames.head? = some (Frame.handshakeFrame
          ⟨.none, some router.serverProtocol, some router.protocolHash⟩)) := by
  have hcall : AvroRouter_call checker router req =
      ⟨.avroResponse ⟨some (.errorModel 400
          (e.message (router.avroRoutes.map Prod.fst)) Option.none),
        some ⟨.none, some router.serverProtocol, some router.protocolHash⟩, true, 400⟩,
        (settle_avro_handshake checker router req).scopeHandshake,
        (settle_avro_handshake checker router req).router⟩ := by
    unfold AvroRouter_call
    rw [hct]
    simp only [eq_self_iff_true, if_true]
    rw [herr]
    dsimp only []
    rw [if_pos hsp]
  refine ⟨⟨[Frame.handshakeFrame
      (((settle_avro_handshake checker router req).scopeHandshake).getD
        ⟨.none, some router.serverProtocol, some router.protocolHash⟩),
    Frame.callFrame true (ModelData.errorModel 400
      (e.message (router.avroRoutes.map Prod.fst)) Option.none),
    Frame.terminator], 200, true,
    some (((settle_avro_handshake checker router req).scopeHandshake).getD
      ⟨.none, some router.serverProtocol, some router.protocolHash⟩).hmatch⟩,
    ?_, rfl, rfl, ?_⟩
  · unfold AvroRouter_respond
    rw [hcall]
    dsimp only []
    rw [render_error_response _ _ _ _ _ _ hacc hhdr]
  · intro hnone
    rw [hnone]
    rfl

/-- Witness for the amended C2 at a concrete empty-body request. -/
theorem claim_C2_witness :
    (settle_avro_handshake exChecker exRouterHit exReqNoBody).result
        = .error DecodeErr.noBody ∧
    exRouterHit.serverProtocol ≠ "" ∧
    ∃ r, (AvroRouter_respond exChecker exRouterHit exReqNoBody).1
        = FinalResponse.rendered r ∧
      r.frames = [Frame.handshakeFrame
          (((settle_avro_handshake exChecker exRouterHit exReqNoBody).scopeHandshake).getD
            ⟨.none, some exRouterHit.serverProtocol, some exRouterHit.protocolHash⟩),
        Frame.callFrame true (ModelData.errorModel 400
          (DecodeErr.noBody.message (exRouterHit.avroRoutes.map Prod.fst)) Option.none),
        Frame.terminator] ∧
      r.status = 200 ∧
      ((settle_avro_handshake exChecker exRouterHit exReqNoBody).scopeHandshake
          = Option.none →
        r.frames.head? = some (Frame.handshakeFrame
          ⟨.none, some exRouterHit.serverProtocol, some exRouterHit.protocolHash⟩)) :=
  ⟨rfl, by decide,
    claim_C2_error_response exChecker exRouterHit exReqNoBody DecodeErr.noBody
      rfl rfl rfl (by decide) rfl⟩

/-- **C3.** After any sequence of requests against a freshly constructed
router, the compatibility cache holds at most the configured maximum of
100 entries (and since every prefix of a sequence is a sequence, the bound
holds after each request's handling completes). -/
theorem claim_C3_cache_bound (checker : Nat → Nat → Bool)
    (routes : List (String × RouteInfo)) (sp : String) (ph : MD5)
    (reqs : List AvroRequest) :
    (processRequests checker (mkAvroRouter routes sp ph) reqs).clientProtocolCache.length
      ≤ 100 := by
  have h := processRequests_inv checker reqs (mkAvroRouter routes sp ph)
    (by norm_num [mkAvroRouter]) (by simp [mkAvroRouter]) (by simp [mkAvroRouter])
  simpa [mkAvroRouter] using h.2.1

/-- **C10.** When a fresh insertion makes the cache exceed its maximum
size, the purge deletes every entry except the single most recently
inserted one. -/
theorem claim_C10_purge_keeps_newest (checker : Nat → Nat → Bool) (router : AvroRouter)
    (hs : HandshakeRequest) (ds : List (String × ReqDeserializer)) (compat : Bool)
    (router' : AvroRouter)
    (hn : (router.clientProtocolCache.map Prod.fst).Nodup)
    (hfull : router.clientProtocolCache.length = router.clientProtocolMaxSize)
    (hmiss : blookup router.clientProtocolCache hs.clientHash = Option.none)
    (hok : check_schema_compatibility checker router hs = .ok ((ds, compat), router')) :
    router'.clientProtocolCache = [(hs.clientHash, (ds, compat))] := by
  revert hok
  unfold check_schema_compatibility
  rw [hmiss]
  dsimp only []
  cases hcp : hs.clientProtocol with
  | none =>
    intro hok
    exact Except.noConfusion hok
  | some p =>
    dsimp only []
    cases hcm : checkMessages checker router.avroRoutes p.messages ([], true) with
    | error e2 =>
      intro hok
      exact Except.noConfusion hok
    | ok data =>
      dsimp only []
      intro hok
      simp only [Except.ok.injEq, Prod.mk.injEq] at hok
      obtain ⟨hdata, hrt⟩ := hok
      subst hdata
      subst hrt
      dsimp only []
      have hnapp : ((router.clientProtocolCache
          ++ [(hs.clientHash, (ds, compat))]).map Prod.fst).Nodup := by
        rw [List.map_append, List.nodup_append]
        refine ⟨hn, by simp, ?_⟩
        intro a ha hb
        simp only [List.map_cons, List.map_nil, List.mem_cons, List.not_mem_nil,
          or_false] at hb
        subst hb
        exact blookup_none_not_mem router.clientProtocolCache hs.clientHash hmiss ha
      rw [purgeCache_of_nodup _ _ hnapp (by
        rw [List.length_append]
        simp only [List.length_cons, List.length_nil]
        omega)]
      rw [← hfull, List.drop_left]

/-- Witness for C10 at a concrete full two-entry cache. -/
theorem claim_C10_witness :
    (exRouterFull.clientProtocolCache.map Prod.fst).Nodup ∧
    exRouterFull.clientProtocolCache.length = exRouterFull.clientProtocolMaxSize ∧
    blookup exRouterFull.clientProtocolCache exHashC = Option.none ∧
    (⟨[], "proto", exHashB, 2, [(exHashC, ([], true))]⟩ : AvroRouter).clientProtocolCache
      = [(exHashC, ([], true))] :=
  ⟨by decide, by decide, by decide,
    claim_C10_purge_keeps_newest exChecker exRouterFull ⟨exHashC, some ⟨[]⟩, exHashB⟩
      [] true ⟨[], "proto", exHashB, 2, [(exHashC, ([], true))]⟩
      (by decide) (by decide) (by decide) rfl⟩

/-- **C7 counterexample.** A field annotated with the PEP 604 union
`int | None` and default `None` is emitted with the members in declaration
order — null last — and with a `default` key, because `types.UnionType`
has no `__origin__` and therefore fails the special-case test. -/
theorem claim_C7_counterexample :
    (convert_object_field ⟨"B", .pipeUnion [.intT, .noneType], .null, false⟩).ftype
      = SchemaJson.arr [.str "long", .str "null"] ∧
    (convert_object_field ⟨"B", .pipeUnion [.intT, .noneType], .null, false⟩).default
      = some JsonVal.null ∧
    ¬ ((convert_object_field ⟨"B", .pipeUnion [.intT, .noneType], .null, false⟩).default
      = Option.none) :=
  ⟨rfl, rfl, fun h =>
    Option.noConfusion (h : (some JsonVal.null : Option JsonVal) = Option.none)⟩

/-- **C7 (amended).** For a field whose declared type is a two-member
`typing.Union`/`Optional` of `None` and `T` with default `None`, the
generated field schema is the union with null ordered first and no
`default` key; a PEP 604 `T | None` union instead keeps the declared
member order and emits a null `default`. -/
theorem claim_C7_null_first (nm : String) (T : PyType) (req : Bool)
    (hT : T.isNoneType = false) :
    convert_object_field ⟨nm, .typingUnion [.noneType, T], .null, req⟩ =
      ⟨nm, .arr [.str "null", pyGetType T], Option.none⟩ ∧
    convert_object_field ⟨nm, .typingUnion [T, .noneType], .null, req⟩ =
      ⟨nm, .arr [.str "null", pyGetType T], Option.none⟩ := by
  constructor
  · rfl
  · cases T with
    | noneType => exact Bool.noConfusion hT
    | boolT => rfl
    | intT => rfl
    | strT => rfl
    | named s => rfl
    | typingUnion args => rfl
    | pipeUnion args => rfl

/-- Witness for the amended C7 at `Optional[str]`. -/
theorem claim_C7_witness :
    PyType.isNoneType .strT = false ∧
    (convert_object_field ⟨"x", .typingUnion [.noneType, .strT], .null, false⟩ =
      ⟨"x", .arr [.str "null", pyGetType .strT], Option.none⟩ ∧
    convert_object_field ⟨"x", .typingUnion [.strT, .noneType], .null, false⟩ =
      ⟨"x", .arr [.str "null", pyGetType .strT], Option.none⟩) :=
  ⟨rfl, claim_C7_null_first "x" .strT false rfl⟩

/-- **C8 counterexample.** An `AvroMessage` constructed with an explicit
`oneWay=True` and a non-null response is accepted, so `oneWay` is true
while the response is not `'null'`. -/
theorem claim_C8_counterexample :
    (mkAvroMessage Option.none [⟨"Foo"⟩] [] (.strV "Foo") Option.none (some true)).map
        (fun m => (m.oneWay, m.response))
      = some (true, .strV "Foo") ∧
    ResponseVal.strV "Foo" ≠ ResponseVal.strV "null" :=
  ⟨by decide, by decide⟩

/-- **C8 (amended).** For every successfully constructed `AvroMessage`,
`oneWay` is true iff the response is the string `'null'` or a truthy
`oneWay` was supplied explicitly at construction. -/
theorem claim_C8_oneWay (doc : Option String) (types : List TypeDecl)
    (request : List MsgEntry) (response : ResponseVal)
    (errors : Option (List MsgEntry)) (oneWay : Option Bool) (m : AvroMessage)
    (hm : mkAvroMessage doc types request response errors oneWay = some m) :
    m.oneWay = true ↔ (oneWay = some true ∨ response = .strV "null") := by
  unfold mkAvroMessage at hm
  by_cases hv : (validate_models_exist (some request) types
      && validate_response_exists response types
      && validate_models_exist errors types) = true
  · rw [if_pos hv] at hm
    injection hm with hm
    subst hm
    unfold set_oneWay
    cases oneWay with
    | none => simp [beq_iff_eq]
    | some b => cases b <;> simp [beq_iff_eq]
  · rw [if_neg hv] at hm
    exact Option.noConfusion hm

/-- Witness for the amended C8 at a null-response message. -/
theorem claim_C8_witness :
    mkAvroMessage Option.none [] [] (.strV "null") Option.none Option.none
      = some ⟨Option.none, [], [], .strV "null", Option.none, true⟩ ∧
    ((⟨Option.none, [], [], .strV "null", Option.none, true⟩ : AvroMessage).oneWay = true
      ↔ ((Option.none : Option Bool) = some true ∨
        ResponseVal.strV "null" = .strV "null")) :=
  ⟨rfl, claim_C8_oneWay Option.none [] [] (.strV "null") Option.none Option.none
    ⟨Option.none, [], [], .strV "null", Option.none, true⟩ rfl⟩

end AvroFastAPI

